import Mathlib

/-!
Verification of the monopoly simulator (monopoly.py).

The development shallowly embeds the game engine: board cells become a tagged
variant type, the mutable object graph becomes an explicit state record
(house pool, cell list, player list), randomness becomes an injected stream
of naturals with an explicit read pointer, and the two unbounded while loops
of the source (the house-building loop in Player.take_turn and the round loop
in Game.play) become fuel recursion and explicit iteration.

Money values: the source adds round(0.5 * price) style amounts to cash
(Python round, ties to even) but accumulates the liquidation proceeds of
Player.cover_debt as exact floating halves.  Cash amounts therefore use
roundHalfEven below, and cover_debt bookkeeping is kept exact by carrying
twice the raised amount as an integer.
-/

set_option maxHeartbeats 1600000

namespace Monopoly

/-- Kinds of non-ownable board spaces, from Space.KINDS in monopoly.py. -/
inductive SpaceKind
  | go
  | chance
  | communityChest
  | incomeTax
  | luxuryTax
  | jail
  | goToJail
  | freeParking
deriving DecidableEq

/-- Property colors, from Property.COLORS in monopoly.py. -/
inductive Color
  | brown
  | lightBlue
  | pink
  | orange
  | red
  | yellow
  | green
  | blue
deriving DecidableEq

/-- Property.COLORS in source order. -/
def allColors : List Color :=
  [Color.brown, Color.lightBlue, Color.pink, Color.orange,
   Color.red, Color.yellow, Color.green, Color.blue]

/-- A board cell: a plain (non-ownable) Space, or one of the three ownable
variants Property, Railroad, Utility.  The owner back-reference of the source
becomes an optional index into the player list.  House counts are integers
because Property.houses is a plain Python int (sell_house decrements it
without a guard). -/
inductive Cell
  | space (kind : SpaceKind)
  | property (color : Color) (price : Nat) (rentData : List Int)
      (houses : Int) (housePrice : Nat) (mortgaged : Bool) (owner : Option Nat)
  | railroad (price : Nat) (mortgaged : Bool) (owner : Option Nat)
  | utility (price : Nat) (mortgaged : Bool) (owner : Option Nat)
deriving DecidableEq

namespace Cell

/-- Owner of a cell; plain spaces are never owned. -/
def owner? : Cell → Option Nat
  | .space _ => none
  | .property _ _ _ _ _ _ o => o
  | .railroad _ _ o => o
  | .utility _ _ o => o

def isMortgaged : Cell → Bool
  | .space _ => false
  | .property _ _ _ _ _ m _ => m
  | .railroad _ m _ => m
  | .utility _ m _ => m

/-- Purchase price; 0 for plain spaces (never consulted for them). -/
def price : Cell → Nat
  | .space _ => 0
  | .property _ pr _ _ _ _ _ => pr
  | .railroad pr _ _ => pr
  | .utility pr _ _ => pr

/-- House count; 0 for cells that are not colored properties. -/
def housesOf : Cell → Int
  | .property _ _ _ h _ _ _ => h
  | _ => 0

/-- Price of one house; 0 for cells that are not colored properties. -/
def housePriceOf : Cell → Nat
  | .property _ _ _ _ hp _ _ => hp
  | _ => 0

def isProperty : Cell → Bool
  | .property _ _ _ _ _ _ _ => true
  | _ => false

def isRailroad : Cell → Bool
  | .railroad _ _ _ => true
  | _ => false

def isUtility : Cell → Bool
  | .utility _ _ _ => true
  | _ => false

/-- Ownable cells: the three kinds dispatched on by resolve_space. -/
def isOwnable (c : Cell) : Bool := c.isProperty || c.isRailroad || c.isUtility

/-- Color of a colored property cell, if any. -/
def colorOf : Cell → Option Color
  | .property c _ _ _ _ _ _ => some c
  | _ => none

/-- Rent schedule of a colored property cell. -/
def rentDataOf : Cell → List Int
  | .property _ _ rd _ _ _ _ => rd
  | _ => []

def setOwner (c : Cell) (o : Option Nat) : Cell :=
  match c with
  | .space k => .space k
  | .property col pr rd h hp m _ => .property col pr rd h hp m o
  | .railroad pr m _ => .railroad pr m o
  | .utility pr m _ => .utility pr m o

def setMortgaged (c : Cell) (m : Bool) : Cell :=
  match c with
  | .space k => .space k
  | .property col pr rd h hp _ o => .property col pr rd h hp m o
  | .railroad pr _ o => .railroad pr m o
  | .utility pr _ o => .utility pr m o

def addHouses (c : Cell) (n : Int) : Cell :=
  match c with
  | .property col pr rd h hp m o => .property col pr rd (h + n) hp m o
  | c => c

/-- Per-variant reset methods (Space.reset, Property.reset, Railroad.reset,
Utility.reset): clear owner, mortgage, houses.  A plain Space has no owner in
this model, so its reset is the identity. -/
def reset : Cell → Cell
  | .space k => .space k
  | .property col pr rd _ hp _ _ => .property col pr rd 0 hp false none
  | .railroad pr _ _ => .railroad pr false none
  | .utility pr _ _ => .utility pr false none

end Cell

/-- Mutable per-player state from Player.__init__. -/
structure PlayerSt where
  cash : Int
  bankrupt : Bool
  cashThreshold : Int
  inJail : Bool
  turnsInJail : Nat
  space : Nat
deriving DecidableEq

instance : Inhabited PlayerSt := ⟨⟨0, false, 0, false, 0, 0⟩⟩

/-- Shared game state: the Board (available house pool plus the indexed cell
sequence) and the list of players. -/
structure GameSt where
  houses : Int
  cells : List Cell
  players : List PlayerSt
deriving DecidableEq

def getPlayer (s : GameSt) (i : Nat) : PlayerSt := s.players.getD i default

def setPlayer (s : GameSt) (i : Nat) (p : PlayerSt) : GameSt :=
  { s with players := s.players.set i p }

def modifyPlayer (s : GameSt) (i : Nat) (f : PlayerSt → PlayerSt) : GameSt :=
  setPlayer s i (f (getPlayer s i))

def defaultCell : Cell := Cell.space SpaceKind.go

def getCell (s : GameSt) (j : Nat) : Cell := s.cells.getD j defaultCell

def setCellSt (s : GameSt) (j : Nat) (c : Cell) : GameSt :=
  { s with cells := s.cells.set j c }

def modifyCell (s : GameSt) (j : Nat) (f : Cell → Cell) : GameSt :=
  setCellSt s j (f (getCell s j))

/-- Cell lookup in a bare cell list (the board dict). -/
def getCellL (l : List Cell) (j : Nat) : Cell := l.getD j defaultCell

/-- Indices of the cells owned by player i, in board order (Player.owned).
The derived ownership queries are functions of the cell list alone. -/
def ownedIdxL (l : List Cell) (i : Nat) : List Nat :=
  (List.range l.length).filter (fun j => decide ((getCellL l j).owner? = some i))

def ownedIdx (s : GameSt) (i : Nat) : List Nat := ownedIdxL s.cells i

/-- Number of colored properties of color c owned by player i
(the counting loop of Player.has_monopoly). -/
def countColorL (l : List Cell) (i : Nat) (c : Color) : Nat :=
  ((ownedIdxL l i).filter (fun j =>
    (getCellL l j).isProperty && decide ((getCellL l j).colorOf = some c))).length

def countColor (s : GameSt) (i : Nat) (c : Color) : Nat := countColorL s.cells i c

/-- Required count for a monopoly: 2 for blue and brown, 3 otherwise. -/
def colorNeed (c : Color) : Nat := if c = Color.blue ∨ c = Color.brown then 2 else 3

/-- Player.has_monopoly. -/
def hasMonopolyL (l : List Cell) (i : Nat) (c : Color) : Bool :=
  decide (colorNeed c ≤ countColorL l i c)

def hasMonopoly (s : GameSt) (i : Nat) (c : Color) : Bool := hasMonopolyL s.cells i c

/-- Player.railroads_owned. -/
def railroadsOwned (s : GameSt) (i : Nat) : Nat :=
  ((ownedIdxL s.cells i).filter (fun j => (getCellL s.cells j).isRailroad)).length

/-- Player.utilities_owned. -/
def utilitiesOwned (s : GameSt) (i : Nat) : Nat :=
  ((ownedIdxL s.cells i).filter (fun j => (getCellL s.cells j).isUtility)).length

/-- Player.monopolies: colors with a monopoly, in Property.COLORS order. -/
def monopoliesL (l : List Cell) (i : Nat) : List Color :=
  allColors.filter (hasMonopolyL l i)

def monopolies (s : GameSt) (i : Nat) : List Color := monopoliesL s.cells i

/-- Round a/b to the nearest integer, ties to even (the behaviour of Python
round on an exact half; b is positive at every use). -/
def roundHalfEven (a b : Nat) : Nat :=
  let q := a / b
  let r := a % b
  if 2 * r < b then q
  else if b < 2 * r then q + 1
  else if q % 2 = 0 then q else q + 1

/-- Player.mortgage without its two ValueError guards: every call site in the
source (cover_debt) establishes that the cell is owned and unmortgaged before
calling. -/
def mortgageApply (s : GameSt) (i j : Nat) : GameSt :=
  modifyPlayer (modifyCell s j (fun c => c.setMortgaged true)) i
    (fun p => { p with cash := p.cash + (roundHalfEven (getCell s j).price 2 : Nat) })

/-- Player.un_mortgage without its ValueError guards (the end-of-turn loop in
take_turn establishes them).  The cost round(1.1 * (0.5 * price)) is the
rounding of 11 * price / 20. -/
def unMortgageApply (s : GameSt) (i j : Nat) : GameSt :=
  modifyPlayer (modifyCell s j (fun c => c.setMortgaged false)) i
    (fun p => { p with cash := p.cash - (roundHalfEven (11 * (getCell s j).price) 20 : Nat) })

/-- Player.buy without its already-owned guard (resolve_space only calls it on
an unowned cell). -/
def buyApply (s : GameSt) (i j : Nat) : GameSt :=
  modifyPlayer (modifyCell s j (fun c => c.setOwner (some i))) i
    (fun p => { p with cash := p.cash - (getCell s j).price })

/-- Player.buy_house: fails silently when the pool is empty, otherwise moves
one house from the pool to the property and charges the house price. -/
def buyHouse (s : GameSt) (i j : Nat) : GameSt :=
  if s.houses = 0 then s
  else
    modifyPlayer (modifyCell { s with houses := s.houses - 1 } j (fun c => c.addHouses 1)) i
      (fun p => { p with cash := p.cash - (getCell s j).housePriceOf })

/-- Player.sell_house: returns one house to the pool, removes it from the
property, credits half the house price. -/
def sellHouse (s : GameSt) (i j : Nat) : GameSt :=
  modifyPlayer (modifyCell { s with houses := s.houses + 1 } j (fun c => c.addHouses (-1))) i
    (fun p => { p with cash := p.cash + (roundHalfEven (getCell s j).housePriceOf 2 : Nat) })

/-- Player.declare_bankruptcy: set the flag, hand every owned cell to the
creditor (clearing it when the creditor is the bank, modelled as none), and
add the remaining cash to a creditor player.  The source does not clear the
bankrupt player's own cash. -/
def declareBankruptcy (s : GameSt) (i : Nat) (creditor : Option Nat) : GameSt :=
  let s1 := modifyPlayer s i (fun p => { p with bankrupt := true })
  let s2 := (ownedIdx s1 i).foldl (fun t j => modifyCell t j (fun c => c.setOwner creditor)) s1
  match creditor with
  | none => s2
  | some c => modifyPlayer s2 c (fun p => { p with cash := p.cash + (getPlayer s2 i).cash })

/-- One liquidation pass of Player.cover_debt: walk the owned list, apply act
to every cell satisfying pick, accumulate the proceeds, and return early as
soon as they strictly exceed the debt.  The accumulator carries twice the
raised amount so that the half-price bookkeeping of the source stays in
integers; the early-return comparison raised over debt becomes
2 * debt below twice-raised. -/
def coverLoop (act : GameSt → Nat → GameSt) (pick : Cell → Bool) (gainTwice : Cell → Int)
    (debt : Int) : GameSt → List Nat → Int → GameSt × Int × Bool
  | s, [], r => (s, r, false)
  | s, j :: js, r =>
    if pick (getCell s j) then
      let r2 := r + gainTwice (getCell s j)
      let s2 := act s j
      if 2 * debt < r2 then (s2, r2, true)
      else coverLoop act pick gainTwice debt s2 js r2
    else coverLoop act pick gainTwice debt s js r

def pickRailUtil (c : Cell) : Bool := (c.isRailroad || c.isUtility) && !c.isMortgaged

def pickHoused (c : Cell) : Bool := c.isProperty && decide (0 < c.housesOf)

def pickUnmortgagedProp (c : Cell) : Bool := c.isProperty && !c.isMortgaged

def gainPriceTwice (c : Cell) : Int := (c.price : Int)

def gainHousePriceTwice (c : Cell) : Int := (c.housePriceOf : Int)

/-- Player.cover_debt: mortgage unmortgaged railroads and utilities, then sell
one house from each housed property, then mortgage unmortgaged colored
properties, stopping as soon as the raised amount strictly exceeds the debt;
if all three passes complete without covering, declare bankruptcy to the
creditor. -/
def coverDebt (s : GameSt) (i : Nat) (debt : Int) (creditor : Option Nat) : GameSt :=
  let r1 := coverLoop (fun t j => mortgageApply t i j) pickRailUtil gainPriceTwice debt s (ownedIdx s i) 0
  if r1.2.2 then r1.1
  else
    let r2 := coverLoop (fun t j => sellHouse t i j) pickHoused gainHousePriceTwice debt r1.1 (ownedIdx r1.1 i) r1.2.1
    if r2.2.2 then r2.1
    else
      let r3 := coverLoop (fun t j => mortgageApply t i j) pickUnmortgagedProp gainPriceTwice debt r2.1 (ownedIdx r2.1 i) r2.2.1
      if r3.2.2 then r3.1
      else declareBankruptcy r3.1 i creditor

/-- Player.pay_bank: on a shortfall, cover_debt is invoked with the full
amount owed (not the shortfall), creditor bank; the debit happens only if the
player is not bankrupt afterwards. -/
def payBank (s : GameSt) (i : Nat) (amount : Int) : GameSt :=
  let s1 := if (getPlayer s i).cash - amount < 0 then coverDebt s i amount none else s
  if (getPlayer s1 i).bankrupt then s1
  else modifyPlayer s1 i (fun p => { p with cash := p.cash - amount })

/-- One die: the injected random stream value at the pointer, reduced to 1..6
(random.randint(1, 6)). -/
def die (rng : Nat → Nat) (k : Nat) : Nat := rng k % 6 + 1

/-- Player.pay_rent for the cell at index j; returns the new state and random
pointer (utility rent draws two dice).  A mortgaged cell charges zero rent;
property rent is the schedule entry at the house count, doubled for an
unimproved cell whose owner holds the color monopoly; railroad rent is 50 per
railroad held by the owner; utility rent is 4 or 10 times a fresh roll.  On a
shortfall cover_debt is invoked with the shortfall, creditor the owner; the
transfer happens only if the payer is not bankrupt afterwards. -/
def payRent (rng : Nat → Nat) (s : GameSt) (i j k : Nat) : GameSt × Nat :=
  match (getCell s j).owner? with
  | none => (s, k)
  | some o =>
    let rk : Int × Nat :=
      if (getCell s j).isMortgaged then (0, k)
      else
        match getCell s j with
        | .property c _ rd h _ _ _ =>
          let base := rd.getD h.toNat 0
          (if hasMonopoly s o c && decide (h = 0) then 2 * base else base, k)
        | .railroad _ _ _ => ((50 * railroadsOwned s o : Nat), k)
        | .utility _ _ _ =>
          let mult : Int := if utilitiesOwned s o = 1 then 4 else 10
          (mult * ((die rng k + die rng (k + 1) : Nat) : Int), k + 2)
        | .space _ => (0, k)
    let rent := rk.1
    let s1 :=
      if (getPlayer s i).cash - rent < 0 then coverDebt s i (rent - (getPlayer s i).cash) (some o)
      else s
    if (getPlayer s1 i).bankrupt then (s1, rk.2)
    else
      (modifyPlayer (modifyPlayer s1 i (fun p => { p with cash := p.cash - rent })) o
        (fun p => { p with cash := p.cash + rent }), rk.2)

/-- Income tax amount in resolve_space: 200 when cash is at least 2000, else
round(0.1 * cash).  Cash is nonnegative at every reachable call. -/
def incomeTaxAmount (cash : Int) : Int :=
  if 2000 ≤ cash then 200 else (roundHalfEven cash.toNat 10 : Nat)

/-- Player.go_to_jail. -/
def goToJail (s : GameSt) (i : Nat) : GameSt :=
  modifyPlayer s i (fun p => { p with space := 10, inJail := true })

/-- Player.resolve_space on the cell the player currently occupies.
draw_card is a no-op in the source, so chance and community chest resolve to
nothing. -/
def resolveSpace (rng : Nat → Nat) (s : GameSt) (i k : Nat) : GameSt × Nat :=
  let j := (getPlayer s i).space
  match getCell s j with
  | .space kind =>
    match kind with
    | .luxuryTax => (payBank s i 75, k)
    | .incomeTax => (payBank s i (incomeTaxAmount (getPlayer s i).cash), k)
    | .goToJail => (goToJail s i, k)
    | _ => (s, k)
  | c =>
    match c.owner? with
    | some o => if o = i then (s, k) else payRent rng s i j k
    | none =>
      if decide ((getPlayer s i).cashThreshold < (getPlayer s i).cash - (c.price : Int)) then
        (buyApply s i j, k)
      else (s, k)

/-- Player.move: advance modulo 40 and collect 200 when the move wraps past
go. -/
def move (s : GameSt) (i : Nat) (spaces : Nat) : GameSt :=
  let old := (getPlayer s i).space
  let nw := (old + spaces) % 40
  let s1 := modifyPlayer s i (fun p => { p with space := nw })
  if decide (0 < spaces) && decide (nw < old) then
    modifyPlayer s1 i (fun p => { p with cash := p.cash + 200 })
  else s1

/-- Player.leave_jail: clear the jail flag, move, resolve the landed space,
reset the jail-turn counter. -/
def leaveJail (rng : Nat → Nat) (s : GameSt) (i : Nat) (spaces k : Nat) : GameSt × Nat :=
  let s1 := modifyPlayer s i (fun p => { p with inJail := false })
  let s2 := move s1 i spaces
  let r := resolveSpace rng s2 i k
  (modifyPlayer r.1 i (fun p => { p with turnsInJail := 0 }), r.2)

/-- The un-mortgage loop at the end of take_turn: for each owned mortgaged
cell, un-mortgage it when doing so leaves at least the cash threshold; the
cost test uses the exact value 1.1 * 0.5 * price, scaled by 20 here to stay
in integers. -/
def unmortgagePass (s : GameSt) (i : Nat) : GameSt :=
  (ownedIdx s i).foldl
    (fun t j =>
      if (getCell t j).isMortgaged
          && decide (20 * (getPlayer t i).cashThreshold ≤
                     20 * (getPlayer t i).cash - 11 * ((getCell t j).price : Int))
        then unMortgageApply t i j else t)
    s

/-- Owned colored properties of a color, in board order (the props list built
inside the building loop of take_turn). -/
def propsOfColorL (l : List Cell) (i : Nat) (c : Color) : List Nat :=
  (ownedIdxL l i).filter (fun j =>
    (getCellL l j).isProperty && decide ((getCellL l j).colorOf = some c))

def propsOfColor (s : GameSt) (i : Nat) (c : Color) : List Nat := propsOfColorL s.cells i c

/-- One step of the inner for-pass of the building loop: buy a house when the
property is below the limit, affordable, and unmortgaged. -/
def buildStep (s : GameSt) (i : Nat) (limit : Int) (j : Nat) : GameSt :=
  if decide ((getCell s j).housesOf < limit)
      && decide ((getPlayer s i).cashThreshold ≤
                 (getPlayer s i).cash - ((getCell s j).housePriceOf : Int))
      && !(getCell s j).isMortgaged
    then buyHouse s i j else s

/-- One inner for-pass of the building loop: buy a house for every property
below the limit that is affordable and unmortgaged. -/
def buildPass (s : GameSt) (i : Nat) (props : List Nat) (limit : Int) : GameSt :=
  props.foldl (fun t j => buildStep t i limit j) s

/-- The while loop of the building phase in take_turn.  The source loop can
fail to make progress (every under-limit property mortgaged or unaffordable),
in which case it never terminates; fuel recursion models it, and the theorems
below hold for every fuel. -/
def buildLoop (i : Nat) (props : List Nat) (housePrice0 : Int) : Nat → GameSt → GameSt
  | 0, s => s
  | fuel + 1, s =>
    if decide ((getPlayer s i).cashThreshold ≤ (getPlayer s i).cash - housePrice0)
        && decide (0 < s.houses) then
      match props.map (fun j => (getCell s j).housesOf) with
      | [] => s
      | h0 :: rest =>
        if (h0 :: rest).all (fun x => decide (x = h0)) && decide (h0 = 5) then s
        else
          let limit := if (h0 :: rest).all (fun x => decide (x = h0)) then h0 + 1
                       else rest.foldl max h0
          buildLoop i props housePrice0 fuel (buildPass s i props limit)
    else s

/-- End-of-turn asset management of take_turn: when cash exceeds the
threshold, first the un-mortgage pass, then the even-building loop for every
monopoly color. -/
def endTurnAssets (s : GameSt) (i : Nat) (fuel : Nat) : GameSt :=
  if decide ((getPlayer s i).cashThreshold < (getPlayer s i).cash) then
    let s1 := unmortgagePass s i
    (monopolies s1 i).foldl
      (fun t c =>
        match propsOfColor t i c with
        | [] => t
        | j0 :: rest => buildLoop i (j0 :: rest) ((getCell t j0).housePriceOf : Int) fuel t)
      s1
  else s

/-- The roll-move-resolve while loop of the active branch of take_turn.
dc is the running double count; the loop runs at most three iterations
(the third consecutive double sends the player to jail), so fuel 3 is exact. -/
def rollLoop (rng : Nat → Nat) (i : Nat) : Nat → Nat → GameSt → Nat → GameSt × Nat
  | 0, _, s, k => (s, k)
  | fuel + 1, dc, s, k =>
    let d1 := die rng k
    let d2 := die rng (k + 1)
    let dbl := decide (d1 = d2)
    let dc2 := if dbl then dc + 1 else dc
    if dc2 = 3 then (goToJail s i, k + 2)
    else
      let s1 := move s i (d1 + d2)
      let r := resolveSpace rng s1 i (k + 2)
      if dbl && !(getPlayer r.1 i).inJail && !(getPlayer r.1 i).bankrupt then
        rollLoop rng i fuel dc2 r.1 r.2
      else r

/-- Player.take_turn.  In jail: bump the jail counter and roll; a double
leaves jail immediately, the third failed attempt pays the 50 bail and then
leaves jail unconditionally.  Otherwise run the roll loop.  Either way the
end-of-turn asset management follows. -/
def takeTurn (rng : Nat → Nat) (s : GameSt) (i k fuel : Nat) : GameSt × Nat :=
  let main :=
    if (getPlayer s i).inJail then
      let s0 := modifyPlayer s i (fun p => { p with turnsInJail := p.turnsInJail + 1 })
      let d1 := die rng k
      let d2 := die rng (k + 1)
      if d1 = d2 then leaveJail rng s0 i (d1 + d2) (k + 2)
      else if (getPlayer s0 i).turnsInJail = 3 then
        leaveJail rng (payBank s0 i 50) i (d1 + d2) (k + 2)
      else (s0, k + 2)
    else if (getPlayer s i).bankrupt then (s, k)
    else rollLoop rng i 3 0 s k
  (endTurnAssets main.1 i fuel, main.2)

/-- Game.player_count: number of non-bankrupt players. -/
def playerCount (s : GameSt) : Nat := (s.players.filter (fun p => !p.bankrupt)).length

/-- Game.game_over: exactly one active player left. -/
def gameOver (s : GameSt) : Bool := decide (playerCount s = 1)

/-- Game.active_players, as indices. -/
def activeIdx (s : GameSt) : List Nat :=
  (List.range s.players.length).filter (fun i => !(getPlayer s i).bankrupt)

/-- Game.has_monopolies. -/
def hasMonopoliesB (s : GameSt) : Bool :=
  (List.range s.players.length).any (fun i => !(monopolies s i).isEmpty)

/-- Player.almost_monopolies: colors one property short of a monopoly. -/
def almostMonopoliesL (l : List Cell) (i : Nat) : List Color :=
  allColors.filter (fun c =>
    (decide (c = Color.brown ∨ c = Color.blue) && decide (countColorL l i c = 1))
      || decide (countColorL l i c = 2))

/-- Player.wants: for every almost-monopoly color, the properties of that
color not owned by the player, in board order. -/
def wantsL (l : List Cell) (i : Nat) : List Nat :=
  (almostMonopoliesL l i).flatMap (fun c =>
    (List.range l.length).filter (fun j =>
      (getCellL l j).isProperty && decide ((getCellL l j).colorOf = some c)
        && decide ((getCellL l j).owner? ≠ some i)))

def wants (s : GameSt) (i : Nat) : List Nat := wantsL s.cells i

/-- The first pair of differently colored wanted cells in the pair search of
Game.find_trades. -/
def findPair (s : GameSt) (bw sw : List Nat) : Option (Nat × Nat) :=
  bw.findSome? (fun x =>
    (sw.find? (fun y => decide ((getCell s x).colorOf ≠ (getCell s y).colorOf))).map
      (fun y => (x, y)))

/-- Player.trade as called from find_trades and random_trade: the sell cell
goes to the seller, the buy cell to the buyer. -/
def tradeApply (s : GameSt) (buyer seller buyCell sellCell : Nat) : GameSt :=
  modifyCell (modifyCell s sellCell (fun c => c.setOwner (some seller))) buyCell
    (fun c => c.setOwner (some buyer))

/-- Seller scan of Game.find_trades for a fixed buyer. -/
def findTradesGo (s : GameSt) (b : Nat) : List Nat → GameSt
  | [] => s
  | sel :: rest =>
    if sel = b then findTradesGo s b rest
    else
      let bw := (wants s b).filter (fun j => decide ((getCell s j).owner? = some sel))
      let sw := (wants s sel).filter (fun j => decide ((getCell s j).owner? = some b))
      if !bw.isEmpty && !sw.isEmpty then
        match findPair s bw sw with
        | some xy => tradeApply s b sel xy.1 xy.2
        | none => findTradesGo s b rest
      else findTradesGo s b rest

/-- Game.find_trades. -/
def findTrades (s : GameSt) (b : Nat) : GameSt :=
  findTradesGo s b (List.range s.players.length)

/-- Orchestrator state: the game state plus the round counters of Game and
the read pointer into the injected random stream. -/
structure PlaySt where
  g : GameSt
  rounds : Nat
  roundsNoMonopolies : Nat
  k : Nat
deriving DecidableEq

/-- Game.random_trade: draw two distinct active players and one owned cell of
each from the random stream; swap them when both own something.  The sample
draws happen before the ownership guard, as in the source. -/
def randomTrade (rng : Nat → Nat) (st : PlaySt) : PlaySt :=
  let act := activeIdx st.g
  let n := act.length
  let a1 := rng st.k % max n 1
  let a2r := rng (st.k + 1) % max (n - 1) 1
  let a2 := if a2r < a1 then a2r else a2r + 1
  let p1 := act.getD a1 0
  let p2 := act.getD a2 0
  let o1 := ownedIdx st.g p1
  let o2 := ownedIdx st.g p2
  if !o1.isEmpty && !o2.isEmpty then
    let c1 := o1.getD (rng (st.k + 2) % max o1.length 1) 0
    let c2 := o2.getD (rng (st.k + 3) % max o2.length 1) 0
    { st with g := tradeApply st.g p1 p2 c2 c1, k := st.k + 4 }
  else { st with k := st.k + 2 }

/-- Player scan of Game.play_round: skip bankrupt players, take the turn,
attempt a trade, stop early when the game is over. -/
def playRoundGo (rng : Nat → Nat) (fuel : Nat) : List Nat → PlaySt → PlaySt
  | [], st => st
  | i :: rest, st =>
    if (getPlayer st.g i).bankrupt then playRoundGo rng fuel rest st
    else
      let t := takeTurn rng st.g i st.k fuel
      let g2 := findTrades t.1 i
      let st2 := { st with g := g2, k := t.2 }
      if gameOver g2 then st2 else playRoundGo rng fuel rest st2

/-- Game.play_round. -/
def playRound (rng : Nat → Nat) (fuel : Nat) (st : PlaySt) : PlaySt :=
  playRoundGo rng fuel (List.range st.g.players.length) { st with rounds := st.rounds + 1 }

/-- One iteration of the while loop of Game.play: the anti-deadlock random
trades (every 10 consecutive monopoly-less rounds, and every 50th round),
then a round, then the monopoly-less counter update.  When the game is over
the loop body does not run. -/
def playStep (rng : Nat → Nat) (fuel : Nat) (st : PlaySt) : PlaySt :=
  if gameOver st.g then st
  else
    let st1 :=
      if decide (st.roundsNoMonopolies % 10 = 0) && decide (0 < st.roundsNoMonopolies) then
        randomTrade rng st
      else st
    let st2 :=
      if decide (0 < st1.rounds) && decide (st1.rounds % 50 = 0) then randomTrade rng st1
      else st1
    let st3 := playRound rng fuel st2
    if hasMonopoliesB st3.g then { st3 with roundsNoMonopolies := 0 }
    else { st3 with roundsNoMonopolies := st3.roundsNoMonopolies + 1 }

/-- Board.reset: restore the pool to 44 houses and reset every cell. -/
def boardReset (s : GameSt) : GameSt :=
  { s with houses := 44, cells := s.cells.map Cell.reset }

/-- Player.reset. -/
def PlayerSt.reset (p : PlayerSt) : PlayerSt :=
  { p with cash := 1500, bankrupt := false, inJail := false, turnsInJail := 0, space := 0 }

/-- Game.reset: board reset, player resets, round counter cleared (the
monopoly-less counter is not touched by Game.reset). -/
def gameReset (st : PlaySt) : PlaySt :=
  { st with g := { boardReset st.g with players := st.g.players.map PlayerSt.reset },
            rounds := 0 }

/-- Total number of houses standing on the board (a cell at level 5, a hotel,
counts as 5 because the house count field itself holds 5). -/
def sumHouses (l : List Cell) : Int := (l.map Cell.housesOf).sum

/-- The house-pool conservation invariant: the pool is nonnegative and pool
plus standing houses is the initial 44. -/
def HouseInv (s : GameSt) : Prop :=
  0 ≤ s.houses ∧ s.houses + sumHouses s.cells = 44

instance (s : GameSt) : Decidable (HouseInv s) := by unfold HouseInv; infer_instance

/-! Basic lemmas about list update and the state accessors. -/

theorem set_of_length_le {α : Type} :
    ∀ (l : List α) (i : Nat) (a : α), l.length ≤ i → l.set i a = l
  | [], _, _, _ => rfl
  | _ :: _, 0, _, h => absurd h (by simp)
  | x :: xs, i + 1, a, h => by
    simp only [List.set]
    exact congrArg (x :: ·) (set_of_length_le xs i a (by simpa using h))

theorem getD_set_self {α : Type} :
    ∀ (l : List α) (i : Nat) (a d : α), i < l.length → (l.set i a).getD i d = a
  | [], i, _, _, h => absurd h (by simp)
  | _ :: _, 0, _, _, _ => rfl
  | x :: xs, i + 1, a, d, h => getD_set_self xs i a d (by simpa using h)

theorem getD_set_ne {α : Type} :
    ∀ (l : List α) (i j : Nat) (a d : α), i ≠ j → (l.set i a).getD j d = l.getD j d
  | [], _, _, _, _, _ => rfl
  | _ :: _, 0, 0, _, _, h => absurd rfl h
  | _ :: _, 0, _ + 1, _, _, _ => rfl
  | _ :: _, _ + 1, 0, _, _, _ => rfl
  | _ :: xs, i + 1, j + 1, a, d, h => getD_set_ne xs i j a d (fun e => h (congrArg Nat.succ e))

theorem getD_ge {α : Type} :
    ∀ (l : List α) (i : Nat) (d : α), l.length ≤ i → l.getD i d = d
  | [], _, _, _ => rfl
  | _ :: _, 0, _, h => absurd h (by simp)
  | _ :: xs, i + 1, d, h => getD_ge xs i d (by simpa using h)

@[simp] theorem cells_setPlayer (s : GameSt) (i : Nat) (p : PlayerSt) :
    (setPlayer s i p).cells = s.cells := rfl

@[simp] theorem houses_setPlayer (s : GameSt) (i : Nat) (p : PlayerSt) :
    (setPlayer s i p).houses = s.houses := rfl

@[simp] theorem cells_modifyPlayer (s : GameSt) (i : Nat) (f : PlayerSt → PlayerSt) :
    (modifyPlayer s i f).cells = s.cells := rfl

@[simp] theorem houses_modifyPlayer (s : GameSt) (i : Nat) (f : PlayerSt → PlayerSt) :
    (modifyPlayer s i f).houses = s.houses := rfl

@[simp] theorem players_setCellSt (s : GameSt) (j : Nat) (c : Cell) :
    (setCellSt s j c).players = s.players := rfl

@[simp] theorem houses_setCellSt (s : GameSt) (j : Nat) (c : Cell) :
    (setCellSt s j c).houses = s.houses := rfl

@[simp] theorem players_modifyCell (s : GameSt) (j : Nat) (f : Cell → Cell) :
    (modifyCell s j f).players = s.players := rfl

@[simp] theorem houses_modifyCell (s : GameSt) (j : Nat) (f : Cell → Cell) :
    (modifyCell s j f).houses = s.houses := rfl

@[simp] theorem length_players_setPlayer (s : GameSt) (i : Nat) (p : PlayerSt) :
    (setPlayer s i p).players.length = s.players.length := by
  simp [setPlayer]

@[simp] theorem length_players_modifyPlayer (s : GameSt) (i : Nat) (f : PlayerSt → PlayerSt) :
    (modifyPlayer s i f).players.length = s.players.length := by
  simp [modifyPlayer]

@[simp] theorem length_cells_setCellSt (s : GameSt) (j : Nat) (c : Cell) :
    (setCellSt s j c).cells.length = s.cells.length := by
  simp [setCellSt]

@[simp] theorem length_cells_modifyCell (s : GameSt) (j : Nat) (f : Cell → Cell) :
    (modifyCell s j f).cells.length = s.cells.length := by
  simp [modifyCell]

@[simp] theorem getPlayer_modifyCell (s : GameSt) (j : Nat) (f : Cell → Cell) (i : Nat) :
    getPlayer (modifyCell s j f) i = getPlayer s i := rfl

@[simp] theorem getCell_modifyPlayer (s : GameSt) (i : Nat) (f : PlayerSt → PlayerSt) (j : Nat) :
    getCell (modifyPlayer s i f) j = getCell s j := rfl

theorem getPlayer_modifyPlayer_self (s : GameSt) (i : Nat) (f : PlayerSt → PlayerSt)
    (h : i < s.players.length) :
    getPlayer (modifyPlayer s i f) i = f (getPlayer s i) := by
  unfold modifyPlayer setPlayer getPlayer
  exact getD_set_self _ _ _ _ h

theorem getPlayer_modifyPlayer_ne (s : GameSt) (i : Nat) (f : PlayerSt → PlayerSt)
    (j : Nat) (h : i ≠ j) :
    getPlayer (modifyPlayer s i f) j = getPlayer s j := by
  unfold modifyPlayer setPlayer getPlayer
  exact getD_set_ne _ _ _ _ _ h

theorem getCell_modifyCell_self (s : GameSt) (j : Nat) (f : Cell → Cell)
    (h : j < s.cells.length) :
    getCell (modifyCell s j f) j = f (getCell s j) := by
  unfold modifyCell setCellSt getCell
  exact getD_set_self _ _ _ _ h

theorem getCell_modifyCell_ne (s : GameSt) (j : Nat) (f : Cell → Cell)
    (j2 : Nat) (h : j ≠ j2) :
    getCell (modifyCell s j f) j2 = getCell s j2 := by
  unfold modifyCell setCellSt getCell
  exact getD_set_ne _ _ _ _ _ h

/-! Claim C8: movement stays on the 40-cell board and the pass-go bonus is
credited exactly once per wrapping move. -/

/-- C8: for every move of a positive number of spaces below 40 (every move in
the game is a dice total, at most 12) from a position in [0, 40), the new
position equals (old + spaces) mod 40 and lies in [0, 40), so indexing the
40-cell board never goes out of range, and the fixed 200 pass-go bonus is
credited exactly once iff the move wraps past position 0. -/
theorem C8_move_position_and_bonus (s : GameSt) (i spaces : Nat)
    (hi : i < s.players.length) (hpos : (getPlayer s i).space < 40)
    (h1 : 0 < spaces) (h2 : spaces < 40) :
    (getPlayer (move s i spaces) i).space = ((getPlayer s i).space + spaces) % 40 ∧
    (getPlayer (move s i spaces) i).space < 40 ∧
    (getPlayer (move s i spaces) i).cash =
      (getPlayer s i).cash + (if 40 ≤ (getPlayer s i).space + spaces then 200 else 0) := by
  have key : (((getPlayer s i).space + spaces) % 40 < (getPlayer s i).space) ↔
      (40 ≤ (getPlayer s i).space + spaces) := by omega
  have hi1 : i < (modifyPlayer s i
      (fun p => { p with space := ((getPlayer s i).space + spaces) % 40 })).players.length := by
    simpa using hi
  simp only [move]
  by_cases hw : 40 ≤ (getPlayer s i).space + spaces
  · rw [if_pos (by simp [h1, key.mpr hw])]
    rw [getPlayer_modifyPlayer_self _ _ _ hi1, getPlayer_modifyPlayer_self _ _ _ hi]
    exact ⟨rfl, Nat.mod_lt _ (by norm_num), by simp [hw]⟩
  · have hcond : ¬(((getPlayer s i).space + spaces) % 40 < (getPlayer s i).space) :=
      fun hlt => hw (key.mp hlt)
    rw [if_neg (by simp [hcond])]
    rw [getPlayer_modifyPlayer_self _ _ _ hi]
    exact ⟨rfl, Nat.mod_lt _ (by norm_num), by simp [hw]⟩

/-- Concrete single-player state for the C8 witness: position 38, cash 100. -/
def demoC8 : GameSt := ⟨44, [], [⟨100, false, 200, false, 0, 38⟩]⟩

/-- Witness for C8 at a wrapping move: 38 + 5 wraps to 3 and pays 200 once. -/
theorem C8_witness :
    (0 < demoC8.players.length ∧ (getPlayer demoC8 0).space < 40 ∧ 0 < 5 ∧ 5 < 40) ∧
    ((getPlayer (move demoC8 0 5) 0).space = ((getPlayer demoC8 0).space + 5) % 40 ∧
     (getPlayer (move demoC8 0 5) 0).space < 40 ∧
     (getPlayer (move demoC8 0 5) 0).cash =
       (getPlayer demoC8 0).cash + (if 40 ≤ (getPlayer demoC8 0).space + 5 then 200 else 0)) :=
  ⟨by decide,
   C8_move_position_and_bonus demoC8 0 5 (by decide) (by decide) (by decide) (by decide)⟩

/-! Claim C5: the buy decision on an unowned ownable cell. -/

/-- C5 (general rule): landing on an unowned ownable cell, the player buys it
iff cash minus price strictly exceeds cash_threshold; on a buy the cash drops
by exactly the price and the cell's owner becomes the player, otherwise the
state is unchanged. -/
theorem C5_buy_iff (rng : Nat → Nat) (s : GameSt) (i k : Nat)
    (hi : i < s.players.length)
    (hj : (getPlayer s i).space < s.cells.length)
    (hown : (getCell s (getPlayer s i).space).owner? = none)
    (hkind : (getCell s (getPlayer s i).space).isOwnable = true) :
    (((getPlayer s i).cashThreshold <
        (getPlayer s i).cash - ((getCell s (getPlayer s i).space).price : Int)) →
      resolveSpace rng s i k = (buyApply s i (getPlayer s i).space, k) ∧
      (getPlayer (buyApply s i (getPlayer s i).space) i).cash
        = (getPlayer s i).cash - ((getCell s (getPlayer s i).space).price : Int) ∧
      (getCell (buyApply s i (getPlayer s i).space) (getPlayer s i).space).owner? = some i) ∧
    (¬((getPlayer s i).cashThreshold <
        (getPlayer s i).cash - ((getCell s (getPlayer s i).space).price : Int)) →
      resolveSpace rng s i k = (s, k)) := by
  have hbuyCash : (getPlayer (buyApply s i (getPlayer s i).space) i).cash
      = (getPlayer s i).cash - ((getCell s (getPlayer s i).space).price : Int) := by
    unfold buyApply
    rw [getPlayer_modifyPlayer_self _ _ _ (by simpa using hi)]
    simp
  have hbuyOwn : (getCell (buyApply s i (getPlayer s i).space) (getPlayer s i).space).owner?
      = ((getCell s (getPlayer s i).space).setOwner (some i)).owner? := by
    unfold buyApply
    rw [getCell_modifyPlayer, getCell_modifyCell_self _ _ _ hj]
  rcases hcell : getCell s (getPlayer s i).space with kind | ⟨col, pr, rd, hh, hp, m, o⟩ |
      ⟨pr, m, o⟩ | ⟨pr, m, o⟩ <;> rw [hcell] at hown hkind
  · simp [Cell.isOwnable, Cell.isProperty, Cell.isRailroad, Cell.isUtility] at hkind
  all_goals simp only [Cell.owner?] at hown
  all_goals subst hown
  all_goals rw [hcell] at hbuyCash hbuyOwn
  all_goals simp only [Cell.price] at hbuyCash
  all_goals simp only [Cell.setOwner, Cell.owner?] at hbuyOwn
  all_goals refine ⟨fun hcash => ?_, fun hcash => ?_⟩
  all_goals simp only [Cell.price] at hcash
  all_goals simp only [resolveSpace, hcell, Cell.owner?, Cell.price]
  all_goals simp [hcash, hbuyCash, hbuyOwn]

/-- Concrete state for the claimed C5 scenario: cash 100, threshold 50,
unowned property priced 60 under the player. -/
def demoC5 : GameSt :=
  ⟨44, [Cell.property Color.brown 60 [2, 10, 30, 90, 160, 250] 0 50 false none],
   [⟨100, false, 50, false, 0, 0⟩]⟩

/-- C5 counterexample: the claimed scenario says a player with cash 100 and
threshold 50 buys the unowned property priced 60 and ends with cash 40.  The
code declines: 100 minus 60 is 40, which does not strictly exceed 50, so the
state is unchanged and the cell stays unowned. -/
theorem C5_counterexample :
    resolveSpace (fun _ => 0) demoC5 0 0 = (demoC5, 0) ∧
    (getCell (resolveSpace (fun _ => 0) demoC5 0 0).1 0).owner? = none ∧
    (getPlayer (resolveSpace (fun _ => 0) demoC5 0 0).1 0).cash = 100 := by
  decide

/-- Concrete buying state for the C5 witness: cash 200, threshold 50,
unowned property priced 60; 200 minus 60 exceeds 50 so the player buys. -/
def demoC5buy : GameSt :=
  ⟨44, [Cell.property Color.brown 60 [2, 10, 30, 90, 160, 250] 0 50 false none],
   [⟨200, false, 50, false, 0, 0⟩]⟩

/-- Witness for C5 at a concrete input. -/
theorem C5_witness :
    (0 < demoC5buy.players.length ∧ (getPlayer demoC5buy 0).space < demoC5buy.cells.length ∧
     (getCell demoC5buy (getPlayer demoC5buy 0).space).owner? = none ∧
     (getCell demoC5buy (getPlayer demoC5buy 0).space).isOwnable = true) ∧
    ((((getPlayer demoC5buy 0).cashThreshold <
        (getPlayer demoC5buy 0).cash - ((getCell demoC5buy (getPlayer demoC5buy 0).space).price : Int)) →
       resolveSpace (fun _ => 0) demoC5buy 0 0 = (buyApply demoC5buy 0 (getPlayer demoC5buy 0).space, 0) ∧
       (getPlayer (buyApply demoC5buy 0 (getPlayer demoC5buy 0).space) 0).cash
         = (getPlayer demoC5buy 0).cash - ((getCell demoC5buy (getPlayer demoC5buy 0).space).price : Int) ∧
       (getCell (buyApply demoC5buy 0 (getPlayer demoC5buy 0).space) (getPlayer demoC5buy 0).space).owner? = some 0) ∧
     (¬((getPlayer demoC5buy 0).cashThreshold <
        (getPlayer demoC5buy 0).cash - ((getCell demoC5buy (getPlayer demoC5buy 0).space).price : Int)) →
       resolveSpace (fun _ => 0) demoC5buy 0 0 = (demoC5buy, 0))) :=
  ⟨by decide, C5_buy_iff (fun _ => 0) demoC5buy 0 0 (by decide) (by decide) (by decide) (by decide)⟩

/-! Claim C7: declare_bankruptcy. -/

theorem getCell_eq_getCellL (s : GameSt) (j : Nat) : getCell s j = getCellL s.cells j := rfl

theorem modifyCell_ge (s : GameSt) (j : Nat) (f : Cell → Cell) (h : s.cells.length ≤ j) :
    modifyCell s j f = s := by
  unfold modifyCell setCellSt
  rw [set_of_length_le _ _ _ h]

theorem modifyPlayer_ge (s : GameSt) (i : Nat) (f : PlayerSt → PlayerSt)
    (h : s.players.length ≤ i) : modifyPlayer s i f = s := by
  unfold modifyPlayer setPlayer
  rw [set_of_length_le _ _ _ h]

theorem mem_ownedIdxL (l : List Cell) (i j : Nat) :
    j ∈ ownedIdxL l i ↔ j < l.length ∧ (getCellL l j).owner? = some i := by
  simp [ownedIdxL, List.mem_filter, List.mem_range]

theorem nodup_ownedIdxL (l : List Cell) (i : Nat) : (ownedIdxL l i).Nodup :=
  (List.nodup_range _).filter _

theorem lt_length_of_owner_some (s : GameSt) (j x : Nat)
    (h : (getCell s j).owner? = some x) : j < s.cells.length := by
  by_contra hge
  rw [getCell, getD_ge _ _ _ (le_of_not_lt hge)] at h
  simp [defaultCell, Cell.owner?] at h

theorem setOwnerFold_players (cred : Option Nat) :
    ∀ (js : List Nat) (s : GameSt),
      ((js.foldl (fun t j => modifyCell t j (fun c => c.setOwner cred)) s)).players = s.players
  | [], _ => rfl
  | j0 :: js, s => by
    rw [List.foldl_cons, setOwnerFold_players cred js (modifyCell s j0 _)]
    rfl

theorem getCell_setOwnerFold (cred : Option Nat) :
    ∀ (js : List Nat) (s : GameSt), js.Nodup → ∀ j : Nat,
      getCell (js.foldl (fun t j2 => modifyCell t j2 (fun c => c.setOwner cred)) s) j =
        if j ∈ js ∧ j < s.cells.length then (getCell s j).setOwner cred else getCell s j
  | [], s, _, j => by simp
  | j0 :: js, s, hnd, j => by
    rw [List.foldl_cons,
      getCell_setOwnerFold cred js (modifyCell s j0 (fun c => c.setOwner cred))
        (List.nodup_cons.mp hnd).2 j]
    have hj0 : j0 ∉ js := (List.nodup_cons.mp hnd).1
    by_cases he : j = j0
    · subst he
      have hmem : ¬(j ∈ js) := hj0
      by_cases hlt : j < s.cells.length
      · rw [if_neg (by simp [hmem]), getCell_modifyCell_self _ _ _ hlt,
          if_pos ⟨List.mem_cons_self _ _, hlt⟩]
      · rw [if_neg (by simp [hmem]), modifyCell_ge _ _ _ (le_of_not_lt hlt),
          if_neg (by simp [hlt])]
    · rw [getCell_modifyCell_ne _ _ _ _ (fun e => he e.symm)]
      by_cases hmem : j ∈ js ∧ j < s.cells.length
      · rw [if_pos (by simpa using hmem),
          if_pos ⟨List.mem_cons_of_mem _ hmem.1, hmem.2⟩]
      · rw [if_neg (by simpa using hmem), if_neg]
        intro hc
        exact hmem ⟨(List.mem_cons.mp hc.1).resolve_left he, by simpa using hc.2⟩

/-- C7 (amended): declare_bankruptcy sets the bankrupt flag; every cell owned
by the player goes to the creditor (cleared when the creditor is the bank),
other cells are untouched; a creditor player's cash increases by the bankrupt
player's cash; but the bankrupt player's own cash balance is left unchanged
(the flag alone removes the player from play). -/
theorem C7_declare_bankruptcy (s : GameSt) (i : Nat) (cred : Option Nat)
    (hi : i < s.players.length)
    (hcred : ∀ c, cred = some c → c < s.players.length ∧ c ≠ i) :
    (getPlayer (declareBankruptcy s i cred) i).bankrupt = true ∧
    (getPlayer (declareBankruptcy s i cred) i).cash = (getPlayer s i).cash ∧
    (∀ j, (getCell s j).owner? = some i →
      (getCell (declareBankruptcy s i cred) j).owner? = cred) ∧
    (∀ j, ¬((getCell s j).owner? = some i) →
      getCell (declareBankruptcy s i cred) j = getCell s j) ∧
    (∀ c, cred = some c →
      (getPlayer (declareBankruptcy s i cred) c).cash
        = (getPlayer s c).cash + (getPlayer s i).cash) := by
  have hnd : (ownedIdx s i).Nodup := nodup_ownedIdxL _ _
  have hfoldCell : ∀ j,
      getCell ((ownedIdx s i).foldl (fun t j2 => modifyCell t j2 (fun c => c.setOwner cred))
        (modifyPlayer s i (fun p => { p with bankrupt := true }))) j
      = if j ∈ ownedIdx s i ∧ j < s.cells.length then (getCell s j).setOwner cred
        else getCell s j :=
    fun j => getCell_setOwnerFold cred (ownedIdx s i) _ hnd j
  have hfoldPlayers :
      ((ownedIdx s i).foldl (fun t j2 => modifyCell t j2 (fun c => c.setOwner cred))
        (modifyPlayer s i (fun p => { p with bankrupt := true }))).players
      = (modifyPlayer s i (fun p => { p with bankrupt := true })).players :=
    setOwnerFold_players cred (ownedIdx s i) _
  have hgp2 : ∀ x,
      getPlayer ((ownedIdx s i).foldl (fun t j2 => modifyCell t j2 (fun c => c.setOwner cred))
        (modifyPlayer s i (fun p => { p with bankrupt := true }))) x
      = getPlayer (modifyPlayer s i (fun p => { p with bankrupt := true })) x := by
    intro x
    unfold getPlayer
    rw [hfoldPlayers]
  have hgp1i : getPlayer (modifyPlayer s i (fun p => { p with bankrupt := true })) i
      = { getPlayer s i with bankrupt := true } := getPlayer_modifyPlayer_self _ _ _ hi
  have hown : ∀ j, (getCell s j).owner? = some i →
      (if j ∈ ownedIdx s i ∧ j < s.cells.length then (getCell s j).setOwner cred
        else getCell s j).owner? = cred := by
    intro j hj
    have hlt : j < s.cells.length := lt_length_of_owner_some s j i hj
    rw [if_pos ⟨(mem_ownedIdxL s.cells i j).mpr ⟨hlt, hj⟩, hlt⟩]
    rcases hc : getCell s j with kind | _ | _ | _ <;> rw [hc] at hj <;>
      simp [Cell.owner?] at hj <;> simp [Cell.setOwner, Cell.owner?]
  have hunown : ∀ j, ¬((getCell s j).owner? = some i) →
      (if j ∈ ownedIdx s i ∧ j < s.cells.length then (getCell s j).setOwner cred
        else getCell s j) = getCell s j := by
    intro j hj
    rw [if_neg]
    intro hc
    exact hj ((mem_ownedIdxL s.cells i j).mp hc.1).2
  rcases cred with _ | c
  · simp only [declareBankruptcy]
    rw [show ownedIdx (modifyPlayer s i fun p => { p with bankrupt := true }) i
        = ownedIdx s i from rfl]
    refine ⟨?_, ?_, ?_, ?_, ?_⟩
    · rw [hgp2, hgp1i]
    · rw [hgp2, hgp1i]
    · intro j hj
      rw [hfoldCell]
      exact hown j hj
    · intro j hj
      rw [hfoldCell]
      exact hunown j hj
    · intro c hc
      cases hc
  · obtain ⟨hclen, hcne⟩ := hcred c rfl
    have hclen2 : c < ((ownedIdx s i).foldl
        (fun t j2 => modifyCell t j2 (fun c2 => c2.setOwner (some c)))
        (modifyPlayer s i (fun p => { p with bankrupt := true }))).players.length := by
      rw [hfoldPlayers]
      simpa using hclen
    simp only [declareBankruptcy]
    rw [show ownedIdx (modifyPlayer s i fun p => { p with bankrupt := true }) i
        = ownedIdx s i from rfl]
    refine ⟨?_, ?_, ?_, ?_, ?_⟩
    · rw [getPlayer_modifyPlayer_ne _ _ _ _ hcne, hgp2, hgp1i]
    · rw [getPlayer_modifyPlayer_ne _ _ _ _ hcne, hgp2, hgp1i]
    · intro j hj
      rw [getCell_modifyPlayer, hfoldCell]
      exact hown j hj
    · intro j hj
      rw [getCell_modifyPlayer, hfoldCell]
      exact hunown j hj
    · intro c2 hc2
      cases hc2
      rw [getPlayer_modifyPlayer_self _ _ _ hclen2]
      simp only [hgp2, hgp1i,
        getPlayer_modifyPlayer_ne s i (fun p => { p with bankrupt := true }) c (Ne.symm hcne)]

/-- Concrete two-player state for C7: player 0 has cash 100 and one railroad. -/
def demoC7 : GameSt :=
  ⟨44, [Cell.railroad 200 false (some 0)],
   [⟨100, false, 200, false, 0, 0⟩, ⟨500, false, 200, false, 0, 0⟩]⟩

/-- C7 counterexample: after declaring bankruptcy to player 1, the creditor
gains the 100 cash (500 to 600), but the bankrupt player's cash field still
reads 100 rather than being cleared, so the bankrupt player still holds it. -/
theorem C7_counterexample :
    (getPlayer (declareBankruptcy demoC7 0 (some 1)) 1).cash = 600 ∧
    (getPlayer (declareBankruptcy demoC7 0 (some 1)) 0).cash = 100 ∧
    ¬((getPlayer (declareBankruptcy demoC7 0 (some 1)) 0).cash = 0) := by
  decide

/-- Witness for C7 at the concrete two-player state. -/
theorem C7_witness :
    (0 < demoC7.players.length ∧ (∀ c, some 1 = some c → c < demoC7.players.length ∧ c ≠ 0)) ∧
    ((getPlayer (declareBankruptcy demoC7 0 (some 1)) 0).bankrupt = true ∧
     (getPlayer (declareBankruptcy demoC7 0 (some 1)) 0).cash = (getPlayer demoC7 0).cash ∧
     (∀ j, (getCell demoC7 j).owner? = some 0 →
       (getCell (declareBankruptcy demoC7 0 (some 1)) j).owner? = some 1) ∧
     (∀ j, ¬((getCell demoC7 j).owner? = some 0) →
       getCell (declareBankruptcy demoC7 0 (some 1)) j = getCell demoC7 j) ∧
     (∀ c, (some 1 : Option Nat) = some c →
       (getPlayer (declareBankruptcy demoC7 0 (some 1)) c).cash
         = (getPlayer demoC7 c).cash + (getPlayer demoC7 0).cash)) :=
  ⟨⟨by decide, fun c hc => by cases hc; exact ⟨by decide, by decide⟩⟩,
   C7_declare_bankruptcy demoC7 0 (some 1) (by decide)
     (fun c hc => by cases hc; exact ⟨by decide, by decide⟩)⟩

/-! Claim C4: the rent charged by a property cell. -/

/-- C4 (amended): the rent transferred when landing on another player's
unmortgaged Property cell is the schedule entry at the cell's house count,
doubled when the owner holds the color monopoly and the cell has no houses —
so it is not independent of the rest of the owner's state — and a mortgaged
cell transfers nothing.  The first part pins the exact debit and credit for a
solvent payer; the second part covers the mortgaged case for any ownable
kind. -/
theorem C4_property_rent :
    (∀ (rng : Nat → Nat) (s : GameSt) (i j k : Nat) (col : Color) (pr : Nat)
        (rd : List Int) (hh : Int) (hp : Nat) (o : Nat),
      i < s.players.length → o < s.players.length → ¬(o = i) →
      getCell s j = Cell.property col pr rd hh hp false (some o) →
      (getPlayer s i).bankrupt = false →
      0 ≤ (getPlayer s i).cash -
        (if hasMonopoly s o col && decide (hh = 0) then 2 * rd.getD hh.toNat 0
         else rd.getD hh.toNat 0) →
      (payRent rng s i j k).2 = k ∧
      (getPlayer (payRent rng s i j k).1 i).cash =
        (getPlayer s i).cash -
          (if hasMonopoly s o col && decide (hh = 0) then 2 * rd.getD hh.toNat 0
           else rd.getD hh.toNat 0) ∧
      (getPlayer (payRent rng s i j k).1 o).cash =
        (getPlayer s o).cash +
          (if hasMonopoly s o col && decide (hh = 0) then 2 * rd.getD hh.toNat 0
           else rd.getD hh.toNat 0)) ∧
    (∀ (rng : Nat → Nat) (s : GameSt) (i j k o : Nat),
      i < s.players.length → o < s.players.length → ¬(o = i) →
      (getCell s j).isMortgaged = true → (getCell s j).owner? = some o →
      (getPlayer s i).bankrupt = false → 0 ≤ (getPlayer s i).cash →
      (payRent rng s i j k).2 = k ∧
      (getPlayer (payRent rng s i j k).1 i).cash = (getPlayer s i).cash ∧
      (getPlayer (payRent rng s i j k).1 o).cash = (getPlayer s o).cash) := by
  constructor
  · intro rng s i j k col pr rd hh hp o hi ho hne hc hnb hcash
    have hio : ¬(i = o) := fun e => hne e.symm
    have hR : ¬((getPlayer s i).cash -
        (if hasMonopoly s o col && decide (hh = 0) then 2 * rd.getD hh.toNat 0
         else rd.getD hh.toNat 0) < 0) := not_lt.mpr hcash
    simp only [payRent, hc, Cell.owner?, Cell.isMortgaged, Bool.false_eq_true, if_false]
    rw [if_neg hR, if_neg (by simp [hnb])]
    refine ⟨rfl, ?_, ?_⟩
    · rw [getPlayer_modifyPlayer_ne _ _ _ _ hne, getPlayer_modifyPlayer_self _ _ _ hi]
    · rw [getPlayer_modifyPlayer_self _ _ _ (by simpa using ho),
        getPlayer_modifyPlayer_ne _ _ _ _ hio]
  · intro rng s i j k o hi ho hne hm hc hnb hcash
    have hio : ¬(i = o) := fun e => hne e.symm
    have hR : ¬((getPlayer s i).cash - (0 : Int) < 0) := by omega
    simp only [payRent, hc, hm, eq_self_iff_true, if_true]
    rw [if_neg hR, if_neg (by simp [hnb])]
    refine ⟨rfl, ?_, ?_⟩
    · rw [getPlayer_modifyPlayer_ne _ _ _ _ hne, getPlayer_modifyPlayer_self _ _ _ hi]
      simp
    · rw [getPlayer_modifyPlayer_self _ _ _ (by simpa using ho),
        getPlayer_modifyPlayer_ne _ _ _ _ hio]
      simp

/-- Concrete state for C4: both brown properties owned by player 1 (a brown
monopoly needs two), the landed cell has base rent 2 and no houses. -/
def demoC4 : GameSt :=
  ⟨44, [Cell.property Color.brown 60 [2, 10, 30, 90, 160, 250] 0 50 false (some 1),
        Cell.property Color.brown 60 [4, 20, 60, 180, 320, 450] 0 50 false (some 1)],
   [⟨100, false, 200, false, 0, 0⟩, ⟨0, false, 200, false, 0, 0⟩]⟩

/-- The same state except that the sibling brown property is unowned, so the
owner of the landed cell holds no monopoly. -/
def demoC4single : GameSt :=
  ⟨44, [Cell.property Color.brown 60 [2, 10, 30, 90, 160, 250] 0 50 false (some 1),
        Cell.property Color.brown 60 [4, 20, 60, 180, 320, 450] 0 50 false none],
   [⟨100, false, 200, false, 0, 0⟩, ⟨0, false, 200, false, 0, 0⟩]⟩

/-- C4 counterexample: the claim says the rent is exactly rent_data at the
house count, independent of the rest of the owner's state.  The landed cell
has rent_data 0 equal to 2, yet the payer ends with 96, not 98: the code
doubles the rent because the owner holds the brown monopoly.  On the state
differing only in the owner's other holdings the payer ends with 98. -/
theorem C4_counterexample :
    (getPlayer (payRent (fun _ => 0) demoC4 0 0 0).1 0).cash = 96 ∧
    ¬((getPlayer (payRent (fun _ => 0) demoC4 0 0 0).1 0).cash = 100 - 2) ∧
    (getPlayer (payRent (fun _ => 0) demoC4single 0 0 0).1 0).cash = 98 := by
  decide

/-- Witness for C4: the non-monopoly state charges exactly the schedule rent
2, and a mortgaged railroad charges nothing. -/
theorem C4_witness :
    (0 < demoC4single.players.length ∧ 1 < demoC4single.players.length ∧ ¬(1 = 0) ∧
      getCell demoC4single 0
        = Cell.property Color.brown 60 [2, 10, 30, 90, 160, 250] 0 50 false (some 1) ∧
      (getPlayer demoC4single 0).bankrupt = false ∧
      0 ≤ (getPlayer demoC4single 0).cash -
        (if hasMonopoly demoC4single 1 Color.brown && decide ((0 : Int) = 0) then
           2 * ([2, 10, 30, 90, 160, 250] : List Int).getD (0 : Int).toNat 0
         else ([2, 10, 30, 90, 160, 250] : List Int).getD (0 : Int).toNat 0)) ∧
    ((getPlayer (payRent (fun _ => 0) demoC4single 0 0 0).1 0).cash =
      (getPlayer demoC4single 0).cash -
        (if hasMonopoly demoC4single 1 Color.brown && decide ((0 : Int) = 0) then
           2 * ([2, 10, 30, 90, 160, 250] : List Int).getD (0 : Int).toNat 0
         else ([2, 10, 30, 90, 160, 250] : List Int).getD (0 : Int).toNat 0)) :=
  ⟨by decide,
   (C4_property_rent.1 (fun _ => 0) demoC4single 0 0 0 Color.brown 60
      [2, 10, 30, 90, 160, 250] 0 50 1 (by decide) (by decide) (by decide) (by decide)
      (by decide) (by decide)).2.1⟩

/-! Claims C2 and C3: the liquidation cascade of cover_debt. -/

/-- Contribution of one cell to twice the total amount cover_debt can raise:
its price if it is an unmortgaged railroad or utility, its house price if it
is a property with at least one house (one house per property per pass), and
its price again if it is an unmortgaged colored property. -/
def cellLiqTwice (c : Cell) : Int :=
  (if pickRailUtil c then gainPriceTwice c else 0)
  + ((if pickHoused c then gainHousePriceTwice c else 0)
  + (if pickUnmortgagedProp c then gainPriceTwice c else 0))

/-- Twice the total proceeds available to cover_debt from player i's cells. -/
def liquidationTwice (s : GameSt) (i : Nat) : Int :=
  ((ownedIdx s i).map (fun j => cellLiqTwice (getCell s j))).sum

theorem sum_pickGain_nonneg (pick : Cell → Bool) (gain : Cell → Int)
    (hgain : ∀ c, 0 ≤ gain c) (l : List Nat) (g : Nat → Cell) :
    0 ≤ (l.map (fun j => if pick (g j) then gain (g j) else 0)).sum := by
  apply List.sum_nonneg
  intro x hx
  obtain ⟨j, _, rfl⟩ := List.mem_map.mp hx
  by_cases h : pick (g j)
  · simpa [h] using hgain (g j)
  · simp [h]

/-- The early-return structure of one cover_debt pass: with nonnegative gains
and a not-yet-covered accumulator, the pass reports covered exactly when the
accumulator plus the total gains over the picked cells crosses 2 * debt, and
otherwise its accumulator ends at exactly that total. -/
theorem coverLoop_main (act : GameSt → Nat → GameSt) (pick : Cell → Bool)
    (gain : Cell → Int) (debt : Int)
    (hgain : ∀ c, 0 ≤ gain c)
    (hother : ∀ t j j2, ¬(j2 = j) → getCell (act t j) j2 = getCell t j2) :
    ∀ (js : List Nat) (s : GameSt) (r : Int), js.Nodup → ¬(2 * debt < r) →
      (((coverLoop act pick gain debt s js r).2.2 = true) ↔
        2 * debt < r +
          (js.map (fun j => if pick (getCell s j) then gain (getCell s j) else 0)).sum) ∧
      ((coverLoop act pick gain debt s js r).2.2 = false →
        (coverLoop act pick gain debt s js r).2.1
          = r + (js.map (fun j => if pick (getCell s j) then gain (getCell s j) else 0)).sum)
  | [], s, r, _, hr => by
    constructor
    · simpa [coverLoop] using hr
    · intro _
      simp [coverLoop]
  | j :: js, s, r, hnd, hr => by
    obtain ⟨hj, hnd2⟩ := List.nodup_cons.mp hnd
    by_cases hp : pick (getCell s j)
    · by_cases hcross : 2 * debt < r + gain (getCell s j)
      · have hnn : 0 ≤ (js.map
            (fun j2 => if pick (getCell s j2) then gain (getCell s j2) else 0)).sum :=
          sum_pickGain_nonneg pick gain hgain js _
        constructor
        · simp only [coverLoop, if_pos hp, if_pos hcross, List.map_cons, List.sum_cons,
            if_pos hp]
          constructor
          · intro _
            linarith
          · intro _
            trivial
        · intro hfalse
          simp only [coverLoop, if_pos hp, if_pos hcross] at hfalse
          cases hfalse
      · have hmapeq : js.map (fun j2 =>
            if pick (getCell (act s j) j2) then gain (getCell (act s j) j2) else 0)
            = js.map (fun j2 => if pick (getCell s j2) then gain (getCell s j2) else 0) := by
          apply List.map_congr_left
          intro a ha
          rw [hother s j a (fun e => hj (e ▸ ha))]
        obtain ⟨ih1, ih2⟩ := coverLoop_main act pick gain debt hgain hother js (act s j)
          (r + gain (getCell s j)) hnd2 hcross
        rw [hmapeq] at ih1 ih2
        constructor
        · simp only [coverLoop, if_pos hp, if_neg hcross, List.map_cons, List.sum_cons,
            if_pos hp]
          constructor
          · intro hdone
            have := ih1.mp hdone
            linarith
          · intro hlt
            apply ih1.mpr
            linarith
        · intro hfalse
          simp only [coverLoop, if_pos hp, if_neg hcross] at hfalse ⊢
          rw [ih2 hfalse, List.map_cons, List.sum_cons, if_pos hp]
          ring
    · obtain ⟨ih1, ih2⟩ := coverLoop_main act pick gain debt hgain hother js s r hnd2 hr
      constructor
      · simp only [coverLoop, if_neg hp, List.map_cons, List.sum_cons, if_neg hp]
        constructor
        · intro hdone
          have := ih1.mp hdone
          linarith
        · intro hlt
          apply ih1.mpr
          linarith
      · intro hfalse
        simp only [coverLoop, if_neg hp] at hfalse ⊢
        rw [ih2 hfalse, List.map_cons, List.sum_cons, if_neg hp]
        ring

/-- A quantity preserved by the act on every picked cell is preserved by a
whole cover_debt pass. -/
theorem coverLoop_preserves {β : Type} (act : GameSt → Nat → GameSt) (pick : Cell → Bool)
    (gain : Cell → Int) (debt : Int) (F : GameSt → β)
    (hF : ∀ t j, pick (getCell t j) = true → F (act t j) = F t) :
    ∀ (js : List Nat) (s : GameSt) (r : Int),
      F ((coverLoop act pick gain debt s js r).1) = F s
  | [], _, _ => rfl
  | j :: js, s, r => by
    by_cases hp : pick (getCell s j)
    · by_cases hcross : 2 * debt < r + gain (getCell s j)
      · simp only [coverLoop, if_pos hp, if_pos hcross]
        exact hF s j hp
      · simp only [coverLoop, if_pos hp, if_neg hcross]
        rw [coverLoop_preserves act pick gain debt F hF js (act s j) (r + gain (getCell s j))]
        exact hF s j hp
    · simp only [coverLoop, if_neg hp]
      exact coverLoop_preserves act pick gain debt F hF js s r

theorem owner?_setMortgaged (c : Cell) (m : Bool) : (c.setMortgaged m).owner? = c.owner? := by
  cases c <;> rfl

theorem owner?_addHouses (c : Cell) (n : Int) : (c.addHouses n).owner? = c.owner? := by
  cases c <;> rfl

theorem getCell_mortgageApply_other (t : GameSt) (i j j2 : Nat) (h : ¬(j2 = j)) :
    getCell (mortgageApply t i j) j2 = getCell t j2 := by
  unfold mortgageApply
  rw [getCell_modifyPlayer, getCell_modifyCell_ne _ _ _ _ (fun e => h e.symm)]

theorem getCell_sellHouse_other (t : GameSt) (i j j2 : Nat) (h : ¬(j2 = j)) :
    getCell (sellHouse t i j) j2 = getCell t j2 := by
  unfold sellHouse
  rw [getCell_modifyPlayer, getCell_modifyCell_ne _ _ _ _ (fun e => h e.symm)]
  rfl

/-- A per-player quantity untouched by the modifier is untouched by
modifyPlayer, at every index. -/
theorem getPlayer_field_modifyPlayer {β : Type} (t : GameSt) (i x : Nat)
    (f : PlayerSt → PlayerSt) (G : PlayerSt → β) (hf : ∀ p, G (f p) = G p) :
    G (getPlayer (modifyPlayer t i f) x) = G (getPlayer t x) := by
  by_cases hx : i = x
  · subst hx
    by_cases hlt : i < t.players.length
    · rw [getPlayer_modifyPlayer_self _ _ _ hlt, hf]
    · rw [modifyPlayer_ge _ _ _ (le_of_not_lt hlt)]
  · rw [getPlayer_modifyPlayer_ne _ _ _ _ hx]

theorem ownedIdx_modifyCell (t : GameSt) (j : Nat) (g : Cell → Cell)
    (howner : (g (getCell t j)).owner? = (getCell t j).owner?) (x : Nat) :
    ownedIdx (modifyCell t j g) x = ownedIdx t x := by
  unfold ownedIdx ownedIdxL
  rw [show (modifyCell t j g).cells.length = t.cells.length from by simp]
  apply List.filter_congr
  intro a _
  by_cases he : a = j
  · subst he
    by_cases hlt : a < t.cells.length
    · rw [show getCellL (modifyCell t a g).cells a = getCell (modifyCell t a g) a from rfl,
        getCell_modifyCell_self _ _ _ hlt, howner]
      rfl
    · rw [modifyCell_ge _ _ _ (le_of_not_lt hlt)]
  · rw [show getCellL (modifyCell t j g).cells a = getCell (modifyCell t j g) a from rfl,
      getCell_modifyCell_ne _ _ _ _ (fun e => he e.symm)]
    rfl

/-- The picked-gain sum for one pass, over the owned cells of a state. -/
def ownedPickSum (s : GameSt) (i : Nat) (pick : Cell → Bool) (gain : Cell → Int) : Int :=
  ((ownedIdx s i).map (fun j => if pick (getCell s j) then gain (getCell s j) else 0)).sum

theorem ownedIdx_modifyPlayer (s : GameSt) (i : Nat) (f : PlayerSt → PlayerSt) (x : Nat) :
    ownedIdx (modifyPlayer s i f) x = ownedIdx s x := rfl

theorem ownedPickSum_modifyPlayer (s : GameSt) (i : Nat) (f : PlayerSt → PlayerSt) (x : Nat)
    (pick : Cell → Bool) (gain : Cell → Int) :
    ownedPickSum (modifyPlayer s i f) x pick gain = ownedPickSum s x pick gain := rfl

/-- The picked-gain sum over the owned cells is unchanged by a cell update
that keeps the owner and the summed term of the updated cell. -/
theorem ownedPickSum_modifyCell (t : GameSt) (j : Nat) (g : Cell → Cell) (x : Nat)
    (pick2 : Cell → Bool) (gain2 : Cell → Int)
    (howner : (g (getCell t j)).owner? = (getCell t j).owner?)
    (hterm : (if pick2 (g (getCell t j)) then gain2 (g (getCell t j)) else 0)
      = (if pick2 (getCell t j) then gain2 (getCell t j) else 0)) :
    ownedPickSum (modifyCell t j g) x pick2 gain2 = ownedPickSum t x pick2 gain2 := by
  unfold ownedPickSum
  rw [ownedIdx_modifyCell t j g howner x]
  congr 1
  apply List.map_congr_left
  intro a _
  by_cases he : a = j
  · subst he
    by_cases hlt : a < t.cells.length
    · rw [getCell_modifyCell_self _ _ _ hlt, hterm]
    · rw [modifyCell_ge _ _ _ (le_of_not_lt hlt)]
  · rw [getCell_modifyCell_ne _ _ _ _ (fun e => he e.symm)]

theorem sum_map_add (f g : Nat → Int) :
    ∀ l : List Nat, (l.map (fun j => f j + g j)).sum = (l.map f).sum + (l.map g).sum
  | [] => by simp
  | j :: l => by
    simp only [List.map_cons, List.sum_cons, sum_map_add f g l]
    ring

theorem liquidationTwice_split (s : GameSt) (i : Nat) :
    liquidationTwice s i
      = ownedPickSum s i pickRailUtil gainPriceTwice
        + (ownedPickSum s i pickHoused gainHousePriceTwice
          + ownedPickSum s i pickUnmortgagedProp gainPriceTwice) := by
  unfold liquidationTwice ownedPickSum cellLiqTwice
  rw [sum_map_add (fun j => if pickRailUtil (getCell s j) then gainPriceTwice (getCell s j) else 0)
      (fun j => (if pickHoused (getCell s j) then gainHousePriceTwice (getCell s j) else 0)
        + (if pickUnmortgagedProp (getCell s j) then gainPriceTwice (getCell s j) else 0))]
  rw [sum_map_add (fun j => if pickHoused (getCell s j) then gainHousePriceTwice (getCell s j) else 0)
      (fun j => if pickUnmortgagedProp (getCell s j) then gainPriceTwice (getCell s j) else 0)]

/-- The bankrupt flag is untouched by a cash credit to any player. -/
theorem bankrupt_getPlayer_cashAdd (t : GameSt) (c x : Nat) (v : Int) :
    (getPlayer (modifyPlayer t c (fun p => { p with cash := p.cash + v })) x).bankrupt
      = (getPlayer t x).bankrupt :=
  getPlayer_field_modifyPlayer t c x _ (fun p => p.bankrupt) (fun _ => rfl)

/-- The bankrupt flag is untouched by a cash debit to any player. -/
theorem bankrupt_getPlayer_cashSub (t : GameSt) (c x : Nat) (v : Int) :
    (getPlayer (modifyPlayer t c (fun p => { p with cash := p.cash - v })) x).bankrupt
      = (getPlayer t x).bankrupt :=
  getPlayer_field_modifyPlayer t c x _ (fun p => p.bankrupt) (fun _ => rfl)

theorem bankrupt_declareBankruptcy (t : GameSt) (i : Nat) (cred : Option Nat)
    (hi : i < t.players.length) :
    (getPlayer (declareBankruptcy t i cred) i).bankrupt = true := by
  have h1 : (getPlayer (modifyPlayer t i (fun p => { p with bankrupt := true })) i).bankrupt
      = true := by
    rw [getPlayer_modifyPlayer_self _ _ _ hi]
  have h2 : ∀ x, getPlayer ((ownedIdx t i).foldl
      (fun t2 j => modifyCell t2 j (fun c => c.setOwner cred))
      (modifyPlayer t i (fun p => { p with bankrupt := true }))) x
      = getPlayer (modifyPlayer t i (fun p => { p with bankrupt := true })) x := by
    intro x
    unfold getPlayer
    rw [setOwnerFold_players]
  rcases cred with _ | c
  · simp only [declareBankruptcy]
    rw [show ownedIdx (modifyPlayer t i fun p => { p with bankrupt := true }) i
        = ownedIdx t i from rfl, h2, h1]
  · simp only [declareBankruptcy]
    rw [show ownedIdx (modifyPlayer t i fun p => { p with bankrupt := true }) i
        = ownedIdx t i from rfl]
    rw [bankrupt_getPlayer_cashAdd, h2, h1]

theorem ownedIdx_mortgageApply (t : GameSt) (i j x : Nat) :
    ownedIdx (mortgageApply t i j) x = ownedIdx t x := by
  unfold mortgageApply
  rw [ownedIdx_modifyPlayer]
  exact ownedIdx_modifyCell t j _ (owner?_setMortgaged _ _) x

theorem ownedIdx_sellHouse (t : GameSt) (i j x : Nat) :
    ownedIdx (sellHouse t i j) x = ownedIdx t x := by
  unfold sellHouse
  rw [ownedIdx_modifyPlayer]
  exact ownedIdx_modifyCell { t with houses := t.houses + 1 } j _ (owner?_addHouses _ _) x

theorem bankrupt_mortgageApply (t : GameSt) (i j x : Nat) :
    (getPlayer (mortgageApply t i j) x).bankrupt = (getPlayer t x).bankrupt := by
  unfold mortgageApply
  rw [bankrupt_getPlayer_cashAdd]
  rfl

theorem bankrupt_sellHouse (t : GameSt) (i j x : Nat) :
    (getPlayer (sellHouse t i j) x).bankrupt = (getPlayer t x).bankrupt := by
  unfold sellHouse
  rw [bankrupt_getPlayer_cashAdd]
  rfl

theorem length_mortgageApply (t : GameSt) (i j : Nat) :
    (mortgageApply t i j).players.length = t.players.length := by
  simp [mortgageApply]

theorem length_sellHouse (t : GameSt) (i j : Nat) :
    (sellHouse t i j).players.length = t.players.length := by
  simp [sellHouse]

theorem ownedPickSum_nonneg (s : GameSt) (i : Nat) (pick : Cell → Bool) (gain : Cell → Int)
    (hgain : ∀ c, 0 ≤ gain c) : 0 ≤ ownedPickSum s i pick gain :=
  sum_pickGain_nonneg pick gain hgain _ _

theorem ownedPickSum_mortgageApply (t : GameSt) (i j x : Nat)
    (pick2 : Cell → Bool) (gain2 : Cell → Int)
    (hterm : (if pick2 ((getCell t j).setMortgaged true) then
        gain2 ((getCell t j).setMortgaged true) else 0)
      = (if pick2 (getCell t j) then gain2 (getCell t j) else 0)) :
    ownedPickSum (mortgageApply t i j) x pick2 gain2 = ownedPickSum t x pick2 gain2 := by
  unfold mortgageApply
  rw [ownedPickSum_modifyPlayer]
  exact ownedPickSum_modifyCell t j _ x pick2 gain2 (owner?_setMortgaged _ _) hterm

theorem ownedPickSum_sellHouse (t : GameSt) (i j x : Nat)
    (pick2 : Cell → Bool) (gain2 : Cell → Int)
    (hterm : (if pick2 ((getCell t j).addHouses (-1)) then
        gain2 ((getCell t j).addHouses (-1)) else 0)
      = (if pick2 (getCell t j) then gain2 (getCell t j) else 0)) :
    ownedPickSum (sellHouse t i j) x pick2 gain2 = ownedPickSum t x pick2 gain2 := by
  unfold sellHouse
  rw [ownedPickSum_modifyPlayer]
  exact ownedPickSum_modifyCell { t with houses := t.houses + 1 } j _ x pick2 gain2
    (owner?_addHouses _ _) hterm

theorem pickHoused_of_railUtil (c : Cell) (h : pickRailUtil c = true) :
    pickHoused (c.setMortgaged true) = false ∧ pickHoused c = false := by
  cases c <;>
    simp_all [pickRailUtil, pickHoused, Cell.isRailroad, Cell.isUtility, Cell.isProperty,
      Cell.setMortgaged]

theorem pickProp_of_railUtil (c : Cell) (h : pickRailUtil c = true) :
    pickUnmortgagedProp (c.setMortgaged true) = false ∧ pickUnmortgagedProp c = false := by
  cases c <;>
    simp_all [pickRailUtil, pickUnmortgagedProp, Cell.isRailroad, Cell.isUtility,
      Cell.isProperty, Cell.setMortgaged]

theorem pickProp_addHouses (c : Cell) (n : Int) :
    pickUnmortgagedProp (c.addHouses n) = pickUnmortgagedProp c := by
  cases c <;> rfl

theorem gainPrice_addHouses (c : Cell) (n : Int) :
    gainPriceTwice (c.addHouses n) = gainPriceTwice c := by
  cases c <;> rfl

/-- Bankruptcy characterization of cover_debt: the player ends bankrupt iff
they entered bankrupt or twice the total liquidation value of their holdings
does not strictly exceed twice the debt — that is, the cascade fails exactly
when everything the three passes can raise does not exceed the debt. -/
theorem coverDebt_bankrupt (s : GameSt) (i : Nat) (debt : Int) (cred : Option Nat)
    (hi : i < s.players.length) (hdebt : 0 ≤ debt) :
    (getPlayer (coverDebt s i debt cred) i).bankrupt
      = ((getPlayer s i).bankrupt || decide (liquidationTwice s i ≤ 2 * debt)) := by
  have hnd : (ownedIdx s i).Nodup := nodup_ownedIdxL _ _
  have hg1 : ∀ c : Cell, 0 ≤ gainPriceTwice c := fun c => Int.natCast_nonneg _
  have hg2 : ∀ c : Cell, 0 ≤ gainHousePriceTwice c := fun c => Int.natCast_nonneg _
  have hr0 : ¬(2 * debt < 0) := by omega
  have hP2nn : 0 ≤ ownedPickSum s i pickHoused gainHousePriceTwice :=
    ownedPickSum_nonneg s i _ _ hg2
  have hP3nn : 0 ≤ ownedPickSum s i pickUnmortgagedProp gainPriceTwice :=
    ownedPickSum_nonneg s i _ _ hg1
  have hmain1 := coverLoop_main (fun t j => mortgageApply t i j) pickRailUtil gainPriceTwice
    debt hg1 (fun t j j2 h => getCell_mortgageApply_other t i j j2 h) (ownedIdx s i) s 0 hnd hr0
  have hiff1 : ((coverLoop (fun t j => mortgageApply t i j) pickRailUtil gainPriceTwice
      debt s (ownedIdx s i) 0).2.2 = true) ↔
      2 * debt < 0 + ownedPickSum s i pickRailUtil gainPriceTwice := hmain1.1
  have hsplit := liquidationTwice_split s i
  simp only [coverDebt]
  set P1 := ownedPickSum s i pickRailUtil gainPriceTwice with hP1def
  set P2 := ownedPickSum s i pickHoused gainHousePriceTwice with hP2def
  set P3 := ownedPickSum s i pickUnmortgagedProp gainPriceTwice with hP3def
  set L1 := coverLoop (fun t j => mortgageApply t i j) pickRailUtil gainPriceTwice
    debt s (ownedIdx s i) 0 with hL1def
  have hiff1b : (L1.2.2 = true) ↔ 2 * debt < 0 + P1 := hmain1.1
  have hbk1 : (getPlayer L1.1 i).bankrupt = (getPlayer s i).bankrupt :=
    coverLoop_preserves _ _ _ _ (fun t => (getPlayer t i).bankrupt)
      (fun t j _ => bankrupt_mortgageApply t i j i) _ _ _
  by_cases hd1 : L1.2.2 = true
  · rw [if_pos hd1, hbk1]
    have hcross1 := hiff1b.mp hd1
    have hliq : ¬(liquidationTwice s i ≤ 2 * debt) := by
      rw [hsplit]
      linarith
    rw [decide_eq_false hliq, Bool.or_false]
  · rw [if_neg hd1]
    have hd1f : L1.2.2 = false := by simpa using hd1
    have hval1 : L1.2.1 = 0 + P1 := hmain1.2 hd1f
    have hnm1 : ¬(2 * debt < 0 + P1) := fun h => hd1 (hiff1b.mpr h)
    have hown1 : ownedIdx L1.1 i = ownedIdx s i :=
      coverLoop_preserves _ _ _ _ (fun t => ownedIdx t i)
        (fun t j _ => ownedIdx_mortgageApply t i j i) _ _ _
    have hlen1 : L1.1.players.length = s.players.length :=
      coverLoop_preserves _ _ _ _ (fun t => t.players.length)
        (fun t j _ => length_mortgageApply t i j) _ _ _
    have hsum2 : ownedPickSum L1.1 i pickHoused gainHousePriceTwice = P2 :=
      coverLoop_preserves _ _ _ _ (fun t => ownedPickSum t i pickHoused gainHousePriceTwice)
        (fun t j hp => ownedPickSum_mortgageApply t i j i _ _
          (by simp [(pickHoused_of_railUtil _ hp).1, (pickHoused_of_railUtil _ hp).2])) _ _ _
    have hsum3 : ownedPickSum L1.1 i pickUnmortgagedProp gainPriceTwice = P3 :=
      coverLoop_preserves _ _ _ _
        (fun t => ownedPickSum t i pickUnmortgagedProp gainPriceTwice)
        (fun t j hp => ownedPickSum_mortgageApply t i j i _ _
          (by simp [(pickProp_of_railUtil _ hp).1, (pickProp_of_railUtil _ hp).2])) _ _ _
    rw [hown1, hval1]
    have hmain2 := coverLoop_main (fun t j => sellHouse t i j) pickHoused
      gainHousePriceTwice debt hg2 (fun t j j2 h => getCell_sellHouse_other t i j j2 h)
      (ownedIdx s i) L1.1 (0 + P1) hnd hnm1
    set L2 := coverLoop (fun t j => sellHouse t i j) pickHoused gainHousePriceTwice debt
      L1.1 (ownedIdx s i) (0 + P1) with hL2def
    have hsum2b : (List.map (fun j => if pickHoused (getCell L1.1 j) then
        gainHousePriceTwice (getCell L1.1 j) else 0) (ownedIdx s i)).sum = P2 := by
      rw [show ownedIdx s i = ownedIdx L1.1 i from hown1.symm]
      exact hsum2
    have hiff2 : (L2.2.2 = true) ↔ 2 * debt < (0 + P1) + P2 := by
      have h := hmain2.1
      rw [hsum2b] at h
      exact h
    have hbk2 : (getPlayer L2.1 i).bankrupt = (getPlayer L1.1 i).bankrupt :=
      coverLoop_preserves _ _ _ _ (fun t => (getPlayer t i).bankrupt)
        (fun t j _ => bankrupt_sellHouse t i j i) _ _ _
    by_cases hd2 : L2.2.2 = true
    · rw [if_pos hd2, hbk2, hbk1]
      have hcross2 := hiff2.mp hd2
      have hliq : ¬(liquidationTwice s i ≤ 2 * debt) := by
        rw [hsplit]
        linarith
      rw [decide_eq_false hliq, Bool.or_false]
    · rw [if_neg hd2]
      have hd2f : L2.2.2 = false := by simpa using hd2
      have hval2 : L2.2.1 = (0 + P1) + P2 := by
        have h := hmain2.2 hd2f
        rw [hsum2b] at h
        exact h
      have hnm2 : ¬(2 * debt < (0 + P1) + P2) := fun h => hd2 (hiff2.mpr h)
      have hown2 : ownedIdx L2.1 i = ownedIdx L1.1 i :=
        coverLoop_preserves _ _ _ _ (fun t => ownedIdx t i)
          (fun t j _ => ownedIdx_sellHouse t i j i) _ _ _
      have hlen2 : L2.1.players.length = L1.1.players.length :=
        coverLoop_preserves _ _ _ _ (fun t => t.players.length)
          (fun t j _ => length_sellHouse t i j) _ _ _
      have hsum3b : ownedPickSum L2.1 i pickUnmortgagedProp gainPriceTwice = P3 := by
        refine Eq.trans ?_ hsum3
        exact coverLoop_preserves _ _ _ _
          (fun t => ownedPickSum t i pickUnmortgagedProp gainPriceTwice)
          (fun t j _ => ownedPickSum_sellHouse t i j i _ _
            (by rw [pickProp_addHouses, gainPrice_addHouses])) _ _ _
      rw [hown2, hown1, hval2]
      have hmain3 := coverLoop_main (fun t j => mortgageApply t i j) pickUnmortgagedProp
        gainPriceTwice debt hg1 (fun t j j2 h => getCell_mortgageApply_other t i j j2 h)
        (ownedIdx s i) L2.1 ((0 + P1) + P2) hnd hnm2
      set L3 := coverLoop (fun t j => mortgageApply t i j) pickUnmortgagedProp gainPriceTwice
        debt L2.1 (ownedIdx s i) ((0 + P1) + P2) with hL3def
      have hown2s : ownedIdx L2.1 i = ownedIdx s i := hown2.trans hown1
      have hsum3c : (List.map (fun j => if pickUnmortgagedProp (getCell L2.1 j) then
          gainPriceTwice (getCell L2.1 j) else 0) (ownedIdx s i)).sum = P3 := by
        rw [show ownedIdx s i = ownedIdx L2.1 i from hown2s.symm]
        exact hsum3b
      have hiff3 : (L3.2.2 = true) ↔ 2 * debt < ((0 + P1) + P2) + P3 := by
        have h := hmain3.1
        rw [hsum3c] at h
        exact h
      have hbk3 : (getPlayer L3.1 i).bankrupt = (getPlayer L2.1 i).bankrupt :=
        coverLoop_preserves _ _ _ _ (fun t => (getPlayer t i).bankrupt)
          (fun t j _ => bankrupt_mortgageApply t i j i) _ _ _
      have hlen3 : L3.1.players.length = L2.1.players.length :=
        coverLoop_preserves _ _ _ _ (fun t => t.players.length)
          (fun t j _ => length_mortgageApply t i j) _ _ _
      by_cases hd3 : L3.2.2 = true
      · rw [if_pos hd3, hbk3, hbk2, hbk1]
        have hcross3 := hiff3.mp hd3
        have hliq : ¬(liquidationTwice s i ≤ 2 * debt) := by
          rw [hsplit]
          linarith
        rw [decide_eq_false hliq, Bool.or_false]
      · rw [if_neg hd3]
        have hi3 : i < L3.1.players.length := by
          rw [hlen3, hlen2, hlen1]
          exact hi
        rw [bankrupt_declareBankruptcy L3.1 i cred hi3]
        have hnm3 : ¬(2 * debt < ((0 + P1) + P2) + P3) := fun h => hd3 (hiff3.mpr h)
        have hliq : liquidationTwice s i ≤ 2 * debt := by
          rw [hsplit]
          linarith
        rw [decide_eq_true hliq, Bool.or_true]

/-- Concrete state for the C2 scenario: player 0 (cash 50) owns a railroad of
price 200 (mortgage value 100) and a colored property of price 500 (mortgage
value 250); cell 2 is another player's property charging base rent 300. -/
def demoC2 : GameSt :=
  ⟨44,
   [Cell.railroad 200 false (some 0),
    Cell.property Color.green 500 [15, 80, 220, 440, 525, 640] 0 200 false (some 0),
    Cell.property Color.red 400 [300, 90, 250, 700, 875, 1050] 0 150 false (some 1)],
   [⟨50, false, 200, false, 0, 2⟩, ⟨1500, false, 200, false, 0, 0⟩]⟩

/-- C2: the cover_debt cascade stops as soon as the accumulated proceeds
strictly exceed the debt and declares bankruptcy exactly when the total the
three ordered passes can raise does not exceed the debt (general part); in
the claimed scenario a player owing 300 in rent with cash 50 mortgages the
railroad (100), still short, then the property (250 more), covers the debt
and is not bankrupt (second part); with a debt of 90 the railroad pass alone
covers and the colored property is left unmortgaged, showing the
railroad-first order (third part). -/
theorem C2_cover_debt_cascade :
    (∀ (s : GameSt) (i : Nat) (debt : Int) (cred : Option Nat),
      i < s.players.length → 0 ≤ debt →
      (getPlayer (coverDebt s i debt cred) i).bankrupt
        = ((getPlayer s i).bankrupt || decide (liquidationTwice s i ≤ 2 * debt))) ∧
    ((getPlayer (payRent (fun _ => 0) demoC2 0 2 0).1 0).bankrupt = false ∧
     (getPlayer (payRent (fun _ => 0) demoC2 0 2 0).1 0).cash = 100 ∧
     (getPlayer (payRent (fun _ => 0) demoC2 0 2 0).1 1).cash = 1800 ∧
     (getCell (payRent (fun _ => 0) demoC2 0 2 0).1 0).isMortgaged = true ∧
     (getCell (payRent (fun _ => 0) demoC2 0 2 0).1 1).isMortgaged = true) ∧
    ((getCell (coverDebt demoC2 0 90 (some 1)) 0).isMortgaged = true ∧
     (getCell (coverDebt demoC2 0 90 (some 1)) 1).isMortgaged = false ∧
     (getPlayer (coverDebt demoC2 0 90 (some 1)) 0).bankrupt = false) :=
  ⟨fun s i debt cred hi hd => coverDebt_bankrupt s i debt cred hi hd,
   by decide, by decide⟩

/-- Witness for C2 at a concrete input: in the scenario state the liquidation
value (railroad 100 plus property 250) strictly exceeds the shortfall 250, so
cover_debt does not bankrupt player 0. -/
theorem C2_witness :
    (0 < demoC2.players.length ∧ (0 : Int) ≤ 250) ∧
    (getPlayer (coverDebt demoC2 0 250 (some 1)) 0).bankrupt
      = ((getPlayer demoC2 0).bankrupt || decide (liquidationTwice demoC2 0 ≤ 2 * 250)) :=
  ⟨by decide, C2_cover_debt_cascade.1 demoC2 0 250 (some 1) (by decide) (by decide)⟩

/-- Modelled from the spec: pay_bank as claim C3 describes it — on a
shortfall it invokes the debt cover with exactly the shortfall, amount minus
current cash, rather than the full amount the source passes. -/
def payBankSpec (s : GameSt) (i : Nat) (amount : Int) : GameSt :=
  let s1 :=
    if (getPlayer s i).cash - amount < 0 then
      coverDebt s i (amount - (getPlayer s i).cash) none
    else s
  if (getPlayer s1 i).bankrupt then s1
  else modifyPlayer s1 i (fun p => { p with cash := p.cash - amount })

/-- Concrete state for the C3 counterexample: cash 100, one colored property
of price 120 (mortgage value 60), about to pay the bank 150.  Covering the
shortfall 50 succeeds (60 exceeds 50), but the source covers the full 150 and
fails (60 does not exceed 150), so the player goes bankrupt. -/
def demoC3 : GameSt :=
  ⟨44, [Cell.property Color.pink 120 [8, 40, 100, 300, 450, 600] 0 100 false (some 0)],
   [⟨100, false, 200, false, 0, 0⟩]⟩

/-- C3 counterexample: pay_bank does not invoke cover_debt with the
shortfall.  On the concrete state the source bankrupts the player while the
shortfall semantics of the claim would leave the player solvent. -/
theorem C3_counterexample :
    ¬(payBank demoC3 0 150 = payBankSpec demoC3 0 150) ∧
    (getPlayer (payBank demoC3 0 150) 0).bankrupt = true ∧
    (getPlayer (payBankSpec demoC3 0 150) 0).bankrupt = false := by
  decide

/-- C3 (amended): when the debit would drive cash negative, pay_bank invokes
cover_debt with the full amount (not the shortfall) and bank as creditor, and
the debit proceeds iff the player did not go bankrupt during the cover; with
sufficient cash the debit is unconditional; pay_rent, by contrast, invokes
cover_debt with exactly the shortfall (rent minus cash) and the owner as
creditor, and the debit and matching credit proceed iff the payer did not go
bankrupt during the cover. -/
theorem C3_shortfall_cover :
    (∀ (s : GameSt) (i : Nat) (amount : Int),
      i < s.players.length → (getPlayer s i).bankrupt = false →
      0 ≤ (getPlayer s i).cash → (getPlayer s i).cash - amount < 0 →
      payBank s i amount
        = (if (getPlayer (coverDebt s i amount none) i).bankrupt then
             coverDebt s i amount none
           else modifyPlayer (coverDebt s i amount none) i
             (fun p => { p with cash := p.cash - amount })) ∧
      (getPlayer (payBank s i amount) i).bankrupt
        = decide (liquidationTwice s i ≤ 2 * amount)) ∧
    (∀ (s : GameSt) (i : Nat) (amount : Int),
      (getPlayer s i).bankrupt = false → ¬((getPlayer s i).cash - amount < 0) →
      payBank s i amount
        = modifyPlayer s i (fun p => { p with cash := p.cash - amount })) ∧
    (∀ (rng : Nat → Nat) (s : GameSt) (i j k : Nat) (col : Color) (pr : Nat)
        (rd : List Int) (hh : Int) (hp : Nat) (o : Nat),
      getCell s j = Cell.property col pr rd hh hp false (some o) →
      (getPlayer s i).cash -
        (if hasMonopoly s o col && decide (hh = 0) then 2 * rd.getD hh.toNat 0
         else rd.getD hh.toNat 0) < 0 →
      (payRent rng s i j k).2 = k ∧
      (payRent rng s i j k).1
        = (if (getPlayer (coverDebt s i
              ((if hasMonopoly s o col && decide (hh = 0) then 2 * rd.getD hh.toNat 0
                else rd.getD hh.toNat 0) - (getPlayer s i).cash) (some o)) i).bankrupt then
             coverDebt s i
              ((if hasMonopoly s o col && decide (hh = 0) then 2 * rd.getD hh.toNat 0
                else rd.getD hh.toNat 0) - (getPlayer s i).cash) (some o)
           else
             modifyPlayer (modifyPlayer (coverDebt s i
              ((if hasMonopoly s o col && decide (hh = 0) then 2 * rd.getD hh.toNat 0
                else rd.getD hh.toNat 0) - (getPlayer s i).cash) (some o)) i
                (fun p => { p with cash := p.cash -
                  (if hasMonopoly s o col && decide (hh = 0) then 2 * rd.getD hh.toNat 0
                   else rd.getD hh.toNat 0) })) o
                (fun p => { p with cash := p.cash +
                  (if hasMonopoly s o col && decide (hh = 0) then 2 * rd.getD hh.toNat 0
                   else rd.getD hh.toNat 0) }))) := by
  refine ⟨?_, ?_, ?_⟩
  · intro s i amount hi hnb hc0 hshort
    have hamt : 0 ≤ amount := by omega
    have hb : (getPlayer (coverDebt s i amount none) i).bankrupt
        = decide (liquidationTwice s i ≤ 2 * amount) := by
      rw [coverDebt_bankrupt s i amount none hi hamt, hnb, Bool.false_or]
    constructor
    · simp only [payBank]
      rw [if_pos hshort]
    · simp only [payBank]
      rw [if_pos hshort]
      by_cases hbk : (getPlayer (coverDebt s i amount none) i).bankrupt = true
      · rw [if_pos hbk]
        exact hb
      · rw [if_neg hbk]
        rw [bankrupt_getPlayer_cashSub]
        exact hb
  · intro s i amount hnb hns
    simp only [payBank]
    rw [if_neg hns, if_neg (by simp [hnb])]
  · intro rng s i j k col pr rd hh hp o hc hshort
    simp only [payRent, hc, Cell.owner?, Cell.isMortgaged, Bool.false_eq_true, if_false]
    rw [if_pos hshort]
    constructor
    · by_cases hbk : (getPlayer (coverDebt s i
          ((if hasMonopoly s o col && decide (hh = 0) then 2 * rd.getD hh.toNat 0
            else rd.getD hh.toNat 0) - (getPlayer s i).cash) (some o)) i).bankrupt = true
      · rw [if_pos hbk]
      · rw [if_neg hbk]
    · by_cases hbk : (getPlayer (coverDebt s i
          ((if hasMonopoly s o col && decide (hh = 0) then 2 * rd.getD hh.toNat 0
            else rd.getD hh.toNat 0) - (getPlayer s i).cash) (some o)) i).bankrupt = true
      · rw [if_pos hbk, if_pos hbk]
      · rw [if_neg hbk, if_neg hbk]

/-- Concrete no-shortfall state for the C3 witness. -/
def demoC3pay : GameSt :=
  ⟨44, [], [⟨100, false, 200, false, 0, 0⟩]⟩

/-- Witness for C3: with cash 100 and a bank charge of 40, there is no
shortfall and pay_bank is the plain debit. -/
theorem C3_witness :
    ((getPlayer demoC3pay 0).bankrupt = false ∧
      ¬((getPlayer demoC3pay 0).cash - 40 < 0)) ∧
    payBank demoC3pay 0 40
      = modifyPlayer demoC3pay 0 (fun p => { p with cash := p.cash - 40 }) :=
  ⟨⟨by decide, by decide⟩,
   C3_shortfall_cover.2.1 demoC3pay 0 40 (by decide) (by decide)⟩

/-! Claim C1: house-pool conservation. -/

theorem sumHouses_set :
    ∀ (l : List Cell) (j : Nat) (c : Cell), j < l.length →
      sumHouses (l.set j c) = sumHouses l + (c.housesOf - (l.getD j defaultCell).housesOf)
  | [], j, c, h => absurd h (by simp)
  | x :: xs, 0, c, _ => by
    simp [sumHouses]
    ring
  | x :: xs, j + 1, c, h => by
    have ih := sumHouses_set xs j c (by simpa using h)
    simp only [sumHouses, List.set_cons_succ, List.getD_cons_succ, List.map_cons,
      List.sum_cons] at ih ⊢
    rw [ih]
    ring

theorem housesOf_setOwner (c : Cell) (o : Option Nat) :
    (c.setOwner o).housesOf = c.housesOf := by
  cases c <;> rfl

theorem housesOf_setMortgaged (c : Cell) (m : Bool) :
    (c.setMortgaged m).housesOf = c.housesOf := by
  cases c <;> rfl

theorem sumHouses_modifyCell (s : GameSt) (j : Nat) (f : Cell → Cell)
    (hf : (f (getCell s j)).housesOf = (getCell s j).housesOf) :
    sumHouses (modifyCell s j f).cells = sumHouses s.cells := by
  by_cases hlt : j < s.cells.length
  · unfold modifyCell setCellSt
    show sumHouses (s.cells.set j (f (getCell s j))) = sumHouses s.cells
    rw [sumHouses_set s.cells j _ hlt, hf]
    show sumHouses s.cells + ((getCell s j).housesOf - (getCell s j).housesOf) = _
    ring
  · rw [modifyCell_ge _ _ _ (le_of_not_lt hlt)]

/-- HouseInv only reads the pool and the cells, so player updates are
invisible to it. -/
theorem HouseInv_modifyPlayer (s : GameSt) (i : Nat) (f : PlayerSt → PlayerSt) :
    HouseInv (modifyPlayer s i f) ↔ HouseInv s := Iff.rfl

theorem HouseInv_modifyCell (s : GameSt) (j : Nat) (f : Cell → Cell)
    (hf : (f (getCell s j)).housesOf = (getCell s j).housesOf) :
    HouseInv (modifyCell s j f) ↔ HouseInv s := by
  unfold HouseInv
  rw [sumHouses_modifyCell s j f hf]
  rfl

theorem HouseInv_mortgageApply (s : GameSt) (i j : Nat) (h : HouseInv s) :
    HouseInv (mortgageApply s i j) := by
  unfold mortgageApply
  rw [HouseInv_modifyPlayer, HouseInv_modifyCell _ _ _ (housesOf_setMortgaged _ _)]
  exact h

theorem HouseInv_unMortgageApply (s : GameSt) (i j : Nat) (h : HouseInv s) :
    HouseInv (unMortgageApply s i j) := by
  unfold unMortgageApply
  rw [HouseInv_modifyPlayer, HouseInv_modifyCell _ _ _ (housesOf_setMortgaged _ _)]
  exact h

theorem HouseInv_buyApply (s : GameSt) (i j : Nat) (h : HouseInv s) :
    HouseInv (buyApply s i j) := by
  unfold buyApply
  rw [HouseInv_modifyPlayer, HouseInv_modifyCell _ _ _ (housesOf_setOwner _ _)]
  exact h

theorem HouseInv_tradeApply (s : GameSt) (b sel cb cs : Nat) (h : HouseInv s) :
    HouseInv (tradeApply s b sel cb cs) := by
  unfold tradeApply
  rw [HouseInv_modifyCell _ _ _ (housesOf_setOwner _ _),
    HouseInv_modifyCell _ _ _ (housesOf_setOwner _ _)]
  exact h

theorem lt_length_of_isProperty (s : GameSt) (j : Nat)
    (h : (getCell s j).isProperty = true) : j < s.cells.length := by
  by_contra hge
  rw [getCell, getD_ge _ _ _ (le_of_not_lt hge)] at h
  simp [defaultCell, Cell.isProperty] at h

theorem housesOf_addHouses_of_property (c : Cell) (n : Int)
    (h : c.isProperty = true) : (c.addHouses n).housesOf = c.housesOf + n := by
  cases c
  case property => rfl
  all_goals simp [Cell.isProperty] at h

/-- C1 core for buy_house: the pool plus standing houses is conserved and the
pool stays nonnegative (the action declines on an empty pool). -/
theorem HouseInv_buyHouse (s : GameSt) (i j : Nat)
    (hprop : (getCell s j).isProperty = true) (h : HouseInv s) :
    HouseInv (buyHouse s i j) := by
  have hlt : j < s.cells.length := lt_length_of_isProperty s j hprop
  unfold buyHouse
  by_cases h0 : s.houses = 0
  · rw [if_pos h0]
    exact h
  · rw [if_neg h0]
    rw [HouseInv_modifyPlayer]
    constructor
    · show (0 : Int) ≤ s.houses - 1
      obtain ⟨h1, _⟩ := h
      omega
    · show s.houses - 1 + sumHouses ((modifyCell { s with houses := s.houses - 1 } j
        (fun c => c.addHouses 1)).cells) = 44
      unfold modifyCell setCellSt
      have : getCell { s with houses := s.houses - 1 } j = getCell s j := rfl
      show s.houses - 1 + sumHouses (s.cells.set j
        ((getCell s j).addHouses 1)) = 44
      rw [sumHouses_set s.cells j _ hlt,
        housesOf_addHouses_of_property _ _ hprop]
      obtain ⟨_, h2⟩ := h
      show s.houses - 1 + (sumHouses s.cells
        + ((getCell s j).housesOf + 1 - (getCell s j).housesOf)) = 44
      omega

/-- C1 core for sell_house: conservation holds and the pool only grows. -/
theorem HouseInv_sellHouse (s : GameSt) (i j : Nat)
    (hprop : (getCell s j).isProperty = true) (h : HouseInv s) :
    HouseInv (sellHouse s i j) := by
  have hlt : j < s.cells.length := lt_length_of_isProperty s j hprop
  unfold sellHouse
  rw [HouseInv_modifyPlayer]
  constructor
  · show (0 : Int) ≤ s.houses + 1
    obtain ⟨h1, _⟩ := h
    omega
  · show s.houses + 1 + sumHouses ((modifyCell { s with houses := s.houses + 1 } j
      (fun c => c.addHouses (-1))).cells) = 44
    unfold modifyCell setCellSt
    show s.houses + 1 + sumHouses (s.cells.set j
      ((getCell s j).addHouses (-1))) = 44
    rw [sumHouses_set s.cells j _ hlt,
      housesOf_addHouses_of_property _ _ hprop]
    obtain ⟨_, h2⟩ := h
    show s.houses + 1 + (sumHouses s.cells
      + ((getCell s j).housesOf + (-1) - (getCell s j).housesOf)) = 44
    omega

/-- A predicate closed under the act on picked cells is closed under a whole
cover_debt pass. -/
theorem coverLoop_preserves_prop (act : GameSt → Nat → GameSt) (pick : Cell → Bool)
    (gain : Cell → Int) (debt : Int) (Q : GameSt → Prop)
    (hQ : ∀ t j, pick (getCell t j) = true → Q t → Q (act t j)) :
    ∀ (js : List Nat) (s : GameSt) (r : Int),
      Q s → Q ((coverLoop act pick gain debt s js r).1)
  | [], _, _, hs => hs
  | j :: js, s, r, hs => by
    by_cases hp : pick (getCell s j)
    · by_cases hcross : 2 * debt < r + gain (getCell s j)
      · simp only [coverLoop, if_pos hp, if_pos hcross]
        exact hQ s j hp hs
      · simp only [coverLoop, if_pos hp, if_neg hcross]
        exact coverLoop_preserves_prop act pick gain debt Q hQ js (act s j)
          (r + gain (getCell s j)) (hQ s j hp hs)
    · simp only [coverLoop, if_neg hp]
      exact coverLoop_preserves_prop act pick gain debt Q hQ js s r hs

theorem foldl_preserves_prop {α : Type} (f : GameSt → α → GameSt) (Q : GameSt → Prop) :
    ∀ (l : List α) (s : GameSt), (∀ t a, a ∈ l → Q t → Q (f t a)) → Q s →
      Q (l.foldl f s)
  | [], _, _, hs => hs
  | a :: l, s, hQ, hs =>
    foldl_preserves_prop f Q l (f s a) (fun t b hb => hQ t b (List.mem_cons_of_mem _ hb))
      (hQ s a (List.mem_cons_self _ _) hs)

theorem pickHoused_isProperty (c : Cell) (h : pickHoused c = true) :
    c.isProperty = true := by
  simp [pickHoused] at h
  exact h.1

theorem HouseInv_setOwnerFold (cred : Option Nat) :
    ∀ (js : List Nat) (s : GameSt), HouseInv s →
      HouseInv (js.foldl (fun t j => modifyCell t j (fun c => c.setOwner cred)) s) :=
  fun js s h =>
    foldl_preserves_prop _ HouseInv js s
      (fun t a _ ht => (HouseInv_modifyCell t a _ (housesOf_setOwner _ _)).mpr ht) h

theorem HouseInv_declareBankruptcy (s : GameSt) (i : Nat) (cred : Option Nat)
    (h : HouseInv s) : HouseInv (declareBankruptcy s i cred) := by
  simp only [declareBankruptcy]
  rcases cred with _ | c
  · exact HouseInv_setOwnerFold none _ _ ((HouseInv_modifyPlayer s i _).mpr h)
  · rw [HouseInv_modifyPlayer]
    exact HouseInv_setOwnerFold (some c) _ _ ((HouseInv_modifyPlayer s i _).mpr h)

theorem HouseInv_coverDebt (s : GameSt) (i : Nat) (debt : Int) (cred : Option Nat)
    (h : HouseInv s) : HouseInv (coverDebt s i debt cred) := by
  have hQ1 : ∀ t j, pickRailUtil (getCell t j) = true → HouseInv t →
      HouseInv (mortgageApply t i j) := fun t j _ ht => HouseInv_mortgageApply t i j ht
  have hQ2 : ∀ t j, pickHoused (getCell t j) = true → HouseInv t →
      HouseInv (sellHouse t i j) :=
    fun t j hp ht => HouseInv_sellHouse t i j (pickHoused_isProperty _ hp) ht
  have hQ3 : ∀ t j, pickUnmortgagedProp (getCell t j) = true → HouseInv t →
      HouseInv (mortgageApply t i j) := fun t j _ ht => HouseInv_mortgageApply t i j ht
  simp only [coverDebt]
  set L1 := coverLoop (fun t j => mortgageApply t i j) pickRailUtil gainPriceTwice
    debt s (ownedIdx s i) 0 with hL1
  have h1 : HouseInv L1.1 :=
    coverLoop_preserves_prop _ pickRailUtil gainPriceTwice debt HouseInv hQ1 _ _ _ h
  set L2 := coverLoop (fun t j => sellHouse t i j) pickHoused gainHousePriceTwice debt
    L1.1 (ownedIdx L1.1 i) L1.2.1 with hL2
  have h2 : HouseInv L2.1 :=
    coverLoop_preserves_prop _ pickHoused gainHousePriceTwice debt HouseInv hQ2 _ _ _ h1
  set L3 := coverLoop (fun t j => mortgageApply t i j) pickUnmortgagedProp gainPriceTwice
    debt L2.1 (ownedIdx L2.1 i) L2.2.1 with hL3
  have h3 : HouseInv L3.1 :=
    coverLoop_preserves_prop _ pickUnmortgagedProp gainPriceTwice debt HouseInv hQ3 _ _ _ h2
  by_cases d1 : L1.2.2 = true
  · rw [if_pos d1]
    exact h1
  · rw [if_neg d1]
    by_cases d2 : L2.2.2 = true
    · rw [if_pos d2]
      exact h2
    · rw [if_neg d2]
      by_cases d3 : L3.2.2 = true
      · rw [if_pos d3]
        exact h3
      · rw [if_neg d3]
        exact HouseInv_declareBankruptcy _ i cred h3

theorem HouseInv_payBank (s : GameSt) (i : Nat) (amount : Int) (h : HouseInv s) :
    HouseInv (payBank s i amount) := by
  simp only [payBank]
  by_cases hs : (getPlayer s i).cash - amount < 0
  · rw [if_pos hs]
    have h1 := HouseInv_coverDebt s i amount none h
    by_cases hb : (getPlayer (coverDebt s i amount none) i).bankrupt = true
    · rw [if_pos hb]
      exact h1
    · rw [if_neg hb]
      exact (HouseInv_modifyPlayer _ _ _).mpr h1
  · rw [if_neg hs]
    by_cases hb : (getPlayer s i).bankrupt = true
    · rw [if_pos hb]
      exact h
    · rw [if_neg hb]
      exact (HouseInv_modifyPlayer _ _ _).mpr h

theorem HouseInv_payRent (rng : Nat → Nat) (s : GameSt) (i j k : Nat) (h : HouseInv s) :
    HouseInv (payRent rng s i j k).1 := by
  simp only [payRent]
  split
  · exact h
  · repeat' split
    all_goals
      first
        | exact h
        | exact HouseInv_coverDebt _ _ _ _ h

theorem HouseInv_goToJail (s : GameSt) (i : Nat) (h : HouseInv s) :
    HouseInv (goToJail s i) := (HouseInv_modifyPlayer _ _ _).mpr h

theorem HouseInv_resolveSpace (rng : Nat → Nat) (s : GameSt) (i k : Nat) (h : HouseInv s) :
    HouseInv (resolveSpace rng s i k).1 := by
  simp only [resolveSpace]
  repeat' split
  all_goals
    first
      | exact h
      | exact HouseInv_payBank _ _ _ h
      | exact HouseInv_goToJail _ _ h
      | exact HouseInv_payRent _ _ _ _ _ h
      | exact HouseInv_buyApply _ _ _ h

theorem HouseInv_move (s : GameSt) (i spaces : Nat) (h : HouseInv s) :
    HouseInv (move s i spaces) := by
  simp only [move]
  split
  · exact (HouseInv_modifyPlayer _ _ _).mpr ((HouseInv_modifyPlayer _ _ _).mpr h)
  · exact (HouseInv_modifyPlayer _ _ _).mpr h

theorem HouseInv_leaveJail (rng : Nat → Nat) (s : GameSt) (i spaces k : Nat)
    (h : HouseInv s) : HouseInv (leaveJail rng s i spaces k).1 := by
  simp only [leaveJail]
  exact (HouseInv_modifyPlayer _ _ _).mpr
    (HouseInv_resolveSpace rng _ i k
      (HouseInv_move _ i spaces ((HouseInv_modifyPlayer _ _ _).mpr h)))

theorem HouseInv_rollLoop (rng : Nat → Nat) (i : Nat) :
    ∀ (fuel dc : Nat) (s : GameSt) (k : Nat), HouseInv s →
      HouseInv (rollLoop rng i fuel dc s k).1
  | 0, _, _, _, h => h
  | fuel + 1, dc, s, k, h => by
    simp only [rollLoop]
    repeat' split
    all_goals
      first
        | exact HouseInv_goToJail _ _ h
        | exact HouseInv_rollLoop rng i fuel _ _ _
            (HouseInv_resolveSpace rng _ i _ (HouseInv_move _ i _ h))
        | exact HouseInv_resolveSpace rng _ i _ (HouseInv_move _ i _ h)

theorem HouseInv_unmortgagePass (s : GameSt) (i : Nat) (h : HouseInv s) :
    HouseInv (unmortgagePass s i) := by
  apply foldl_preserves_prop _ HouseInv _ _ _ h
  intro t a _ ht
  dsimp only
  split
  · exact HouseInv_unMortgageApply _ _ _ ht
  · exact ht

/-- Every index in props points at a colored property cell. -/
def PropsProp (props : List Nat) (s : GameSt) : Prop :=
  ∀ a ∈ props, (getCell s a).isProperty = true

theorem isProperty_addHouses (c : Cell) (n : Int) :
    (c.addHouses n).isProperty = c.isProperty := by
  cases c <;> rfl

theorem isProperty_buyHouse (t : GameSt) (i j a : Nat) :
    (getCell (buyHouse t i j) a).isProperty = (getCell t a).isProperty := by
  unfold buyHouse
  split
  · rfl
  · rw [getCell_modifyPlayer]
    by_cases he : a = j
    · subst he
      by_cases hlt : a < t.cells.length
      · rw [getCell_modifyCell_self _ _ _ (by simpa using hlt), isProperty_addHouses]
        rfl
      · rw [modifyCell_ge _ _ _ (by simpa using le_of_not_lt hlt)]
        rfl
    · rw [getCell_modifyCell_ne _ _ _ _ (fun e => he e.symm)]
      rfl

theorem buildPass_preserves (i : Nat) (props : List Nat) (limit : Int) (s : GameSt)
    (h : HouseInv s ∧ PropsProp props s) :
    HouseInv (buildPass s i props limit) ∧ PropsProp props (buildPass s i props limit) := by
  apply foldl_preserves_prop _ (fun t => HouseInv t ∧ PropsProp props t) _ _ _ h
  intro t a ha ht
  dsimp only [buildStep]
  split
  · constructor
    · exact HouseInv_buyHouse t i a (ht.2 a ha) ht.1
    · intro b hb
      rw [isProperty_buyHouse]
      exact ht.2 b hb
  · exact ht

theorem buildLoop_preserves (i : Nat) (props : List Nat) (hp0 : Int) :
    ∀ (fuel : Nat) (s : GameSt), HouseInv s ∧ PropsProp props s →
      HouseInv (buildLoop i props hp0 fuel s) ∧ PropsProp props (buildLoop i props hp0 fuel s)
  | 0, _, h => h
  | fuel + 1, s, h => by
    simp only [buildLoop]
    repeat' split
    all_goals
      first
        | exact h
        | exact buildLoop_preserves i props hp0 fuel _ (buildPass_preserves i props _ s h)

theorem mem_propsOfColor_isProperty (s : GameSt) (i : Nat) (c : Color) (a : Nat)
    (ha : a ∈ propsOfColor s i c) : (getCell s a).isProperty = true := by
  unfold propsOfColor propsOfColorL at ha
  have := (List.mem_filter.mp ha).2
  simp at this
  exact this.1

theorem HouseInv_endTurnAssets (s : GameSt) (i fuel : Nat) (h : HouseInv s) :
    HouseInv (endTurnAssets s i fuel) := by
  simp only [endTurnAssets]
  split
  · apply And.left
    apply foldl_preserves_prop _ (fun t => HouseInv t ∧ True) _ _ _
      ⟨HouseInv_unmortgagePass s i h, trivial⟩
    intro t c _ ht
    dsimp only
    split
    · exact ht
    · rename_i j0 rest heq
      constructor
      · refine (buildLoop_preserves i (j0 :: rest) _ fuel t ⟨ht.1, ?_⟩).1
        intro a ha
        apply mem_propsOfColor_isProperty t i c
        rw [heq]
        exact ha
      · trivial
  · exact h

theorem HouseInv_takeTurn (rng : Nat → Nat) (s : GameSt) (i k fuel : Nat)
    (h : HouseInv s) : HouseInv (takeTurn rng s i k fuel).1 := by
  simp only [takeTurn]
  apply HouseInv_endTurnAssets
  repeat' split
  all_goals
    first
      | exact h
      | exact (HouseInv_modifyPlayer _ _ _).mpr h
      | exact HouseInv_rollLoop rng i 3 0 s k h
      | exact HouseInv_leaveJail rng _ i _ _ ((HouseInv_modifyPlayer _ _ _).mpr h)
      | exact HouseInv_leaveJail rng _ i _ _
          (HouseInv_payBank _ i 50 ((HouseInv_modifyPlayer _ _ _).mpr h))

theorem housesOf_reset (c : Cell) : (Cell.reset c).housesOf = 0 := by
  cases c <;> rfl

theorem sumHouses_reset : ∀ l : List Cell, sumHouses (l.map Cell.reset) = 0
  | [] => rfl
  | c :: l => by
    show (Cell.reset c).housesOf + sumHouses (l.map Cell.reset) = 0
    rw [housesOf_reset, sumHouses_reset l]
    ring

theorem HouseInv_boardReset (s : GameSt) : HouseInv (boardReset s) := by
  constructor
  · show (0 : Int) ≤ 44
    norm_num
  · show (44 : Int) + sumHouses (s.cells.map Cell.reset) = 44
    rw [sumHouses_reset]
    ring

/-- C1: house-pool conservation.  Board.reset establishes the invariant
(pool 44 and no standing houses); buy_house and sell_house on a property
cell, cover_debt, and take_turn each preserve it: the pool stays nonnegative
and pool plus the sum of house counts over all Property cells (a hotel
counting as its stored level 5) stays 44. -/
theorem C1_house_pool_conservation :
    (∀ (s : GameSt) (i j : Nat), (getCell s j).isProperty = true →
      HouseInv s → HouseInv (buyHouse s i j)) ∧
    (∀ (s : GameSt) (i j : Nat), (getCell s j).isProperty = true →
      HouseInv s → HouseInv (sellHouse s i j)) ∧
    (∀ (s : GameSt) (i : Nat) (debt : Int) (cred : Option Nat),
      HouseInv s → HouseInv (coverDebt s i debt cred)) ∧
    (∀ (rng : Nat → Nat) (s : GameSt) (i k fuel : Nat),
      HouseInv s → HouseInv (takeTurn rng s i k fuel).1) ∧
    (∀ s : GameSt, HouseInv (boardReset s)) :=
  ⟨fun s i j hp h => HouseInv_buyHouse s i j hp h,
   fun s i j hp h => HouseInv_sellHouse s i j hp h,
   fun s i debt cred h => HouseInv_coverDebt s i debt cred h,
   fun rng s i k fuel h => HouseInv_takeTurn rng s i k fuel h,
   HouseInv_boardReset⟩

/-- Concrete state satisfying the invariant for the C1 witness: 8 houses
stand on the board and the pool holds 36. -/
def demoC1 : GameSt :=
  ⟨36,
   [Cell.property Color.pink 140 [10, 50, 150, 450, 625, 750] 2 100 false (some 0),
    Cell.property Color.pink 140 [10, 50, 150, 450, 625, 750] 3 100 false (some 0),
    Cell.property Color.pink 160 [12, 60, 180, 500, 700, 900] 3 100 false (some 0),
    Cell.space SpaceKind.chance,
    Cell.space SpaceKind.communityChest,
    Cell.property Color.red 220 [80, 90, 250, 700, 875, 1050] 0 150 false (some 1)],
   [⟨30, false, 200, false, 0, 0⟩, ⟨1500, false, 200, false, 0, 1⟩]⟩

/-- Witness for C1: a full take_turn (which triggers a cover_debt house sale)
preserves the invariant on the concrete state. -/
theorem C1_witness :
    HouseInv demoC1 ∧
    HouseInv (takeTurn (fun n => if n = 0 then 0 else 3) demoC1 0 0 20).1 :=
  ⟨by decide,
   C1_house_pool_conservation.2.2.2.1 (fun n => if n = 0 then 0 else 3) demoC1 0 0 20
     (by decide)⟩

/-! Claim C10: the third in-jail turn pays bail and leaves jail
unconditionally. -/

theorem length_declareBankruptcy (t : GameSt) (i : Nat) (cred : Option Nat) :
    (declareBankruptcy t i cred).players.length = t.players.length := by
  simp only [declareBankruptcy]
  rcases cred with _ | c
  · rw [setOwnerFold_players]
    simp
  · rw [length_players_modifyPlayer, setOwnerFold_players]
    simp

theorem length_coverDebt (s : GameSt) (i : Nat) (debt : Int) (cred : Option Nat) :
    (coverDebt s i debt cred).players.length = s.players.length := by
  simp only [coverDebt]
  set L1 := coverLoop (fun t j => mortgageApply t i j) pickRailUtil gainPriceTwice
    debt s (ownedIdx s i) 0 with hL1
  have h1 : L1.1.players.length = s.players.length :=
    coverLoop_preserves _ pickRailUtil gainPriceTwice debt (fun t => t.players.length)
      (fun t j _ => length_mortgageApply t i j) _ _ _
  set L2 := coverLoop (fun t j => sellHouse t i j) pickHoused gainHousePriceTwice debt
    L1.1 (ownedIdx L1.1 i) L1.2.1 with hL2
  have h2 : L2.1.players.length = s.players.length := by
    rw [show L2.1.players.length = L1.1.players.length from
      coverLoop_preserves _ pickHoused gainHousePriceTwice debt (fun t => t.players.length)
        (fun t j _ => length_sellHouse t i j) _ _ _]
    exact h1
  set L3 := coverLoop (fun t j => mortgageApply t i j) pickUnmortgagedProp gainPriceTwice
    debt L2.1 (ownedIdx L2.1 i) L2.2.1 with hL3
  have h3 : L3.1.players.length = s.players.length := by
    rw [show L3.1.players.length = L2.1.players.length from
      coverLoop_preserves _ pickUnmortgagedProp gainPriceTwice debt
        (fun t => t.players.length) (fun t j _ => length_mortgageApply t i j) _ _ _]
    exact h2
  by_cases d1 : L1.2.2 = true
  · rw [if_pos d1]
    exact h1
  · rw [if_neg d1]
    by_cases d2 : L2.2.2 = true
    · rw [if_pos d2]
      exact h2
    · rw [if_neg d2]
      by_cases d3 : L3.2.2 = true
      · rw [if_pos d3]
        exact h3
      · rw [if_neg d3]
        rw [length_declareBankruptcy]
        exact h3

theorem length_goToJail (s : GameSt) (i : Nat) :
    (goToJail s i).players.length = s.players.length := by
  simp [goToJail]

theorem length_buyApply (s : GameSt) (i j : Nat) :
    (buyApply s i j).players.length = s.players.length := by
  simp [buyApply]

theorem length_payBank (s : GameSt) (i : Nat) (amount : Int) :
    (payBank s i amount).players.length = s.players.length := by
  simp only [payBank]
  repeat' split
  all_goals try simp only [length_players_modifyPlayer]
  all_goals first
    | rfl
    | exact length_coverDebt _ _ _ _

theorem length_payRent (rng : Nat → Nat) (s : GameSt) (i j k : Nat) :
    ((payRent rng s i j k).1).players.length = s.players.length := by
  simp only [payRent]
  repeat' split
  all_goals try simp only [length_players_modifyPlayer]
  all_goals first
    | rfl
    | exact length_coverDebt _ _ _ _

theorem length_resolveSpace (rng : Nat → Nat) (s : GameSt) (i k : Nat) :
    ((resolveSpace rng s i k).1).players.length = s.players.length := by
  simp only [resolveSpace]
  repeat' split
  all_goals first
    | rfl
    | exact length_payBank _ _ _
    | exact length_payRent _ _ _ _ _
    | exact length_goToJail _ _
    | exact length_buyApply _ _ _

theorem length_move (s : GameSt) (i spaces : Nat) :
    (move s i spaces).players.length = s.players.length := by
  simp only [move]
  split
  all_goals simp only [length_players_modifyPlayer]

/-- C10: in take_turn's in-jail branch, a player on the third turn in jail
who rolls a non-double pays the 50 bail to the bank and then leave_jail runs
unconditionally — the whole turn is exactly the bail payment followed by
leave_jail (clear the jail flag, move by the rolled total, resolve the landed
space, reset the jail counter) and the end-of-turn asset pass, with no test
of the bankruptcy the bail payment may have caused; in particular the jail
counter ends at 0. -/
theorem C10_jail_third_turn (rng : Nat → Nat) (s : GameSt) (i k fuel : Nat)
    (hi : i < s.players.length)
    (hjail : (getPlayer s i).inJail = true)
    (hturns : (getPlayer s i).turnsInJail = 2)
    (hnd : ¬(die rng k = die rng (k + 1))) :
    takeTurn rng s i k fuel
      = (endTurnAssets (leaveJail rng
          (payBank (modifyPlayer s i (fun p => { p with turnsInJail := p.turnsInJail + 1 }))
            i 50) i (die rng k + die rng (k + 1)) (k + 2)).1 i fuel,
         (leaveJail rng
          (payBank (modifyPlayer s i (fun p => { p with turnsInJail := p.turnsInJail + 1 }))
            i 50) i (die rng k + die rng (k + 1)) (k + 2)).2) ∧
    (getPlayer (leaveJail rng
        (payBank (modifyPlayer s i (fun p => { p with turnsInJail := p.turnsInJail + 1 }))
          i 50) i (die rng k + die rng (k + 1)) (k + 2)).1 i).turnsInJail = 0 := by
  have hturns3 : (getPlayer (modifyPlayer s i
      (fun p => { p with turnsInJail := p.turnsInJail + 1 })) i).turnsInJail = 3 := by
    rw [getPlayer_modifyPlayer_self _ _ _ hi]
    simpa using hturns
  constructor
  · simp only [takeTurn, hjail, if_true]
    rw [if_neg hnd, if_pos hturns3]
  · simp only [leaveJail]
    have hlen : i < ((resolveSpace rng
        (move (modifyPlayer (payBank (modifyPlayer s i
          (fun p => { p with turnsInJail := p.turnsInJail + 1 })) i 50) i
          (fun p => { p with inJail := false })) i (die rng k + die rng (k + 1))) i
        (k + 2)).1).players.length := by
      rw [length_resolveSpace, length_move, length_players_modifyPlayer, length_payBank,
        length_players_modifyPlayer]
      exact hi
    rw [getPlayer_modifyPlayer_self _ _ _ hlen]

/-- Concrete state for the C10 witness: in jail on the third turn with cash
10 and nothing to liquidate, so the 50 bail bankrupts the player, who still
leaves jail and moves. -/
def demoC10 : GameSt := ⟨44, [], [⟨10, false, 200, true, 2, 10⟩]⟩

def demoRngC10 : Nat → Nat := fun n => if n = 0 then 0 else 3

/-- Witness for C10: the bail bankrupts the player (10 < 50, nothing owned),
yet the turn still leaves jail, moves from 10 to 15 by the roll of 5, and
resets the jail counter. -/
theorem C10_witness :
    (0 < demoC10.players.length ∧ (getPlayer demoC10 0).inJail = true ∧
      (getPlayer demoC10 0).turnsInJail = 2 ∧
      ¬(die demoRngC10 0 = die demoRngC10 1)) ∧
    ((getPlayer (takeTurn demoRngC10 demoC10 0 0 5).1 0).bankrupt = true ∧
     (getPlayer (takeTurn demoRngC10 demoC10 0 0 5).1 0).inJail = false ∧
     (getPlayer (takeTurn demoRngC10 demoC10 0 0 5).1 0).space = 15) ∧
    (takeTurn demoRngC10 demoC10 0 0 5
      = (endTurnAssets (leaveJail demoRngC10
          (payBank (modifyPlayer demoC10 0
            (fun p => { p with turnsInJail := p.turnsInJail + 1 })) 0 50) 0
          (die demoRngC10 0 + die demoRngC10 1) 2).1 0 5,
         (leaveJail demoRngC10
          (payBank (modifyPlayer demoC10 0
            (fun p => { p with turnsInJail := p.turnsInJail + 1 })) 0 50) 0
          (die demoRngC10 0 + die demoRngC10 1) 2).2)) :=
  ⟨⟨by decide, by decide, by decide, by decide⟩, ⟨by decide, by decide, by decide⟩,
   (C10_jail_third_turn demoRngC10 demoC10 0 0 5 (by decide) (by decide) (by decide)
      (by decide)).1⟩

/-! Claim C6: the even-building rule.  The building phase of take_turn keeps
the house counts of a fully owned color group within one of each other and at
most five; the debt-liquidation path (cover_debt) does not. -/

/-- Everything the building phase reads about a cell other than its house
count, mortgage flag and prices: variant, color and owner. -/
def cellTag (c : Cell) : Bool × Option Color × Option Nat :=
  (c.isProperty, c.colorOf, c.owner?)

/-- Board indices of the colored property cells of color c (the color
group). -/
def groupIdx (s : GameSt) (c : Color) : List Nat :=
  (List.range s.cells.length).filter (fun j =>
    (getCell s j).isProperty && decide ((getCell s j).colorOf = some c))

/-- The even-building property for a color group: house counts pairwise
differ by at most one, and never exceed five. -/
def EvenColor (s : GameSt) (c : Color) : Prop :=
  (∀ j ∈ groupIdx s c, ∀ j2 ∈ groupIdx s c,
    (getCell s j).housesOf ≤ (getCell s j2).housesOf + 1) ∧
  (∀ j ∈ groupIdx s c, (getCell s j).housesOf ≤ 5)

instance (s : GameSt) (c : Color) : Decidable (EvenColor s c) := by
  unfold EvenColor
  infer_instance

theorem mem_groupIdx (s : GameSt) (c : Color) (j : Nat) :
    j ∈ groupIdx s c ↔
      j < s.cells.length ∧ (getCell s j).isProperty = true ∧
        (getCell s j).colorOf = some c := by
  unfold groupIdx
  rw [List.mem_filter, List.mem_range]
  simp [and_assoc]

theorem mem_propsOfColor (s : GameSt) (i : Nat) (c : Color) (j : Nat) :
    j ∈ propsOfColor s i c ↔
      j < s.cells.length ∧ (getCell s j).owner? = some i ∧
        (getCell s j).isProperty = true ∧ (getCell s j).colorOf = some c := by
  unfold propsOfColor propsOfColorL
  rw [List.mem_filter, mem_ownedIdxL, ← getCell_eq_getCellL]
  simp [and_assoc]

theorem nodup_propsOfColor (s : GameSt) (i : Nat) (c : Color) :
    (propsOfColor s i c).Nodup :=
  List.Nodup.filter _ (nodup_ownedIdxL s.cells i)

theorem cellTag_iff (c d : Cell) : cellTag c = cellTag d ↔
    (c.isProperty = d.isProperty ∧ c.colorOf = d.colorOf ∧ c.owner? = d.owner?) := by
  simp [cellTag, Prod.ext_iff]

theorem cellTag_addHouses (c : Cell) (n : Int) : cellTag (c.addHouses n) = cellTag c := by
  cases c <;> rfl

theorem cellTag_setMortgaged (c : Cell) (m : Bool) :
    cellTag (c.setMortgaged m) = cellTag c := by
  cases c <;> rfl

theorem housesOf_addHouses_or (c : Cell) (n : Int) :
    (c.addHouses n).housesOf = c.housesOf + n ∨ (c.addHouses n).housesOf = c.housesOf := by
  cases c
  case property => exact Or.inl rfl
  all_goals exact Or.inr rfl

theorem getCell_buyHouse_ne (t : GameSt) (i j a : Nat) (h : ¬(a = j)) :
    getCell (buyHouse t i j) a = getCell t a := by
  unfold buyHouse
  split
  · rfl
  · rw [getCell_modifyPlayer, getCell_modifyCell_ne _ _ _ _ (fun e => h e.symm)]
    rfl

theorem cellTag_buyHouse (t : GameSt) (i j a : Nat) :
    cellTag (getCell (buyHouse t i j) a) = cellTag (getCell t a) := by
  by_cases he : a = j
  · subst he
    unfold buyHouse
    split
    · rfl
    · rw [getCell_modifyPlayer]
      by_cases hlt : a < t.cells.length
      · rw [getCell_modifyCell_self _ _ _ (by simpa using hlt), cellTag_addHouses]
        rfl
      · rw [modifyCell_ge _ _ _ (by simpa using le_of_not_lt hlt)]
        rfl
  · rw [getCell_buyHouse_ne t i j a he]

theorem housesOf_buyHouse_self (t : GameSt) (i j : Nat) :
    (getCell (buyHouse t i j) j).housesOf = (getCell t j).housesOf ∨
    (getCell (buyHouse t i j) j).housesOf = (getCell t j).housesOf + 1 := by
  unfold buyHouse
  split
  · exact Or.inl rfl
  · rw [getCell_modifyPlayer]
    by_cases hlt : j < t.cells.length
    · rw [getCell_modifyCell_self _ _ _ (by simpa using hlt)]
      rcases housesOf_addHouses_or (getCell t j) 1 with h | h
      · exact Or.inr h
      · exact Or.inl h
    · rw [modifyCell_ge _ _ _ (by simpa using le_of_not_lt hlt)]
      exact Or.inl rfl

theorem length_cells_buyHouse (t : GameSt) (i j : Nat) :
    (buyHouse t i j).cells.length = t.cells.length := by
  unfold buyHouse
  split
  · rfl
  · simp

theorem buildStep_effect (t : GameSt) (i : Nat) (limit : Int) (j : Nat) :
    ((getCell (buildStep t i limit j) j).housesOf = (getCell t j).housesOf ∨
     ((getCell (buildStep t i limit j) j).housesOf = (getCell t j).housesOf + 1 ∧
      (getCell t j).housesOf < limit)) ∧
    (∀ a, ¬(a = j) → getCell (buildStep t i limit j) a = getCell t a) ∧
    (∀ a, cellTag (getCell (buildStep t i limit j) a) = cellTag (getCell t a)) ∧
    (buildStep t i limit j).cells.length = t.cells.length := by
  unfold buildStep
  split
  · rename_i hcond
    simp only [Bool.and_eq_true, decide_eq_true_eq] at hcond
    refine ⟨?_, fun a ha => getCell_buyHouse_ne t i j a ha,
      fun a => cellTag_buyHouse t i j a, length_cells_buyHouse t i j⟩
    rcases housesOf_buyHouse_self t i j with h | h
    · exact Or.inl h
    · exact Or.inr ⟨h, hcond.1.1⟩
  · exact ⟨Or.inl rfl, fun _ _ => rfl, fun _ => rfl, rfl⟩

theorem buildPass_cons (t : GameSt) (i j0 : Nat) (rest : List Nat) (limit : Int) :
    buildPass t i (j0 :: rest) limit = buildPass (buildStep t i limit j0) i rest limit := rfl

theorem buildPass_effect (i : Nat) (limit : Int) :
    ∀ (props : List Nat), props.Nodup → ∀ (t : GameSt),
      (∀ a, a ∈ props →
        ((getCell (buildPass t i props limit) a).housesOf = (getCell t a).housesOf ∨
         ((getCell (buildPass t i props limit) a).housesOf = (getCell t a).housesOf + 1 ∧
          (getCell t a).housesOf < limit))) ∧
      (∀ a, ¬(a ∈ props) → getCell (buildPass t i props limit) a = getCell t a) ∧
      (∀ a, cellTag (getCell (buildPass t i props limit) a) = cellTag (getCell t a)) ∧
      (buildPass t i props limit).cells.length = t.cells.length
  | [], _, t =>
    ⟨fun a ha => absurd ha (List.not_mem_nil a), fun _ _ => rfl, fun _ => rfl, rfl⟩
  | j0 :: rest, hnd, t => by
    obtain ⟨hj0, hnd2⟩ := List.nodup_cons.mp hnd
    have hstep := buildStep_effect t i limit j0
    have hIH := buildPass_effect i limit rest hnd2 (buildStep t i limit j0)
    rw [buildPass_cons]
    refine ⟨?_, ?_, ?_, ?_⟩
    · intro a ha
      rcases List.mem_cons.mp ha with he | hr
      · subst he
        have hout := hIH.2.1 a hj0
        rw [hout]
        exact hstep.1
      · have hja : ¬(a = j0) := fun e => hj0 (e ▸ hr)
        have hbase : getCell (buildStep t i limit j0) a = getCell t a := hstep.2.1 a hja
        rcases hIH.1 a hr with h | ⟨h, hl⟩
        · exact Or.inl (by rw [h, hbase])
        · exact Or.inr ⟨by rw [h, hbase], by rw [hbase] at hl; exact hl⟩
    · intro a ha
      have h1 : ¬(a ∈ rest) := fun h => ha (List.mem_cons_of_mem _ h)
      have h2 : ¬(a = j0) := fun e => ha (e ▸ List.mem_cons_self j0 rest)
      rw [hIH.2.1 a h1, hstep.2.1 a h2]
    · intro a
      rw [hIH.2.2.1 a, hstep.2.2.1 a]
    · rw [hIH.2.2.2, hstep.2.2.2]

theorem buildPass_even (i : Nat) (limit : Int) (props : List Nat) (hnd : props.Nodup)
    (t : GameSt)
    (hspread : ∀ a ∈ props, ∀ b ∈ props,
      (getCell t a).housesOf ≤ (getCell t b).housesOf + 1)
    (hle5 : ∀ a ∈ props, (getCell t a).housesOf ≤ 5)
    (hlim : ∀ a ∈ props, limit ≤ (getCell t a).housesOf + 1)
    (hlim5 : limit ≤ 5) :
    (∀ a ∈ props, ∀ b ∈ props,
      (getCell (buildPass t i props limit) a).housesOf ≤
        (getCell (buildPass t i props limit) b).housesOf + 1) ∧
    (∀ a ∈ props, (getCell (buildPass t i props limit) a).housesOf ≤ 5) := by
  have heff := buildPass_effect i limit props hnd t
  constructor
  · intro a ha b hb
    have hs := hspread a ha b hb
    have hlb := hlim b hb
    rcases heff.1 a ha with h1 | ⟨h1, h1l⟩ <;> rcases heff.1 b hb with h2 | ⟨h2, h2l⟩ <;> omega
  · intro a ha
    have h5 := hle5 a ha
    rcases heff.1 a ha with h1 | ⟨h1, h1l⟩ <;> omega

theorem foldl_max_le (b : Int) :
    ∀ (l : List Int) (a : Int), a ≤ b → (∀ x ∈ l, x ≤ b) → l.foldl max a ≤ b
  | [], _, ha, _ => ha
  | x :: l, a, ha, hl =>
    foldl_max_le b l (max a x) (max_le ha (hl x (List.mem_cons_self x l)))
      (fun y hy => hl y (List.mem_cons_of_mem _ hy))

theorem buildLoop_shape (i : Nat) (hp0 : Int) :
    ∀ (fuel : Nat) (props : List Nat), props.Nodup → ∀ (t : GameSt),
      (∀ a, ¬(a ∈ props) → getCell (buildLoop i props hp0 fuel t) a = getCell t a) ∧
      (∀ a, cellTag (getCell (buildLoop i props hp0 fuel t) a) = cellTag (getCell t a)) ∧
      (buildLoop i props hp0 fuel t).cells.length = t.cells.length
  | 0, _, _, _ => ⟨fun _ _ => rfl, fun _ => rfl, rfl⟩
  | fuel + 1, props, hnd, t => by
    have step : ∀ limit : Int,
        (∀ a, ¬(a ∈ props) →
          getCell (buildLoop i props hp0 fuel (buildPass t i props limit)) a
            = getCell t a) ∧
        (∀ a, cellTag (getCell (buildLoop i props hp0 fuel (buildPass t i props limit)) a)
            = cellTag (getCell t a)) ∧
        (buildLoop i props hp0 fuel (buildPass t i props limit)).cells.length
            = t.cells.length := by
      intro limit
      have heff := buildPass_effect i limit props hnd t
      have hIH := buildLoop_shape i hp0 fuel props hnd (buildPass t i props limit)
      exact ⟨fun a ha => by rw [hIH.1 a ha, heff.2.1 a ha],
             fun a => by rw [hIH.2.1 a, heff.2.2.1 a],
             by rw [hIH.2.2, heff.2.2.2]⟩
    simp only [buildLoop]
    repeat' split
    all_goals first
      | exact ⟨fun _ _ => rfl, fun _ => rfl, rfl⟩
      | exact step _

theorem buildLoop_even (i : Nat) (hp0 : Int) :
    ∀ (fuel : Nat) (props : List Nat), props.Nodup → ∀ (t : GameSt),
      (∀ a ∈ props, ∀ b ∈ props, (getCell t a).housesOf ≤ (getCell t b).housesOf + 1) →
      (∀ a ∈ props, (getCell t a).housesOf ≤ 5) →
      ((∀ a ∈ props, ∀ b ∈ props,
          (getCell (buildLoop i props hp0 fuel t) a).housesOf ≤
            (getCell (buildLoop i props hp0 fuel t) b).housesOf + 1) ∧
       (∀ a ∈ props, (getCell (buildLoop i props hp0 fuel t) a).housesOf ≤ 5))
  | 0, _, _, _, h1, h2 => ⟨h1, h2⟩
  | fuel + 1, props, hnd, t, h1, h2 => by
    simp only [buildLoop]
    split
    · split
      · exact ⟨h1, h2⟩
      · rename_i h0 restmap heq
        split
        · exact ⟨h1, h2⟩
        · rename_i hstop
          have hh0 : h0 ∈ props.map (fun j => (getCell t j).housesOf) := by
            rw [heq]
            exact List.mem_cons_self _ _
          obtain ⟨a0, ha0, hfa0⟩ := List.mem_map.mp hh0
          have hrestmem : ∀ x ∈ restmap, ∃ a ∈ props, (getCell t a).housesOf = x := by
            intro x hx
            have hx2 : x ∈ props.map (fun j => (getCell t j).housesOf) := by
              rw [heq]
              exact List.mem_cons_of_mem _ hx
            obtain ⟨a, ha, hfa⟩ := List.mem_map.mp hx2
            exact ⟨a, ha, hfa⟩
          split
          · rename_i hall
            have hprops : ∀ a ∈ props, (getCell t a).housesOf = h0 := by
              intro a ha
              have hmem : (getCell t a).housesOf ∈ (h0 :: restmap) := by
                rw [← heq]
                exact List.mem_map_of_mem _ ha
              have := List.all_eq_true.mp hall _ hmem
              simpa using this
            have hne5 : ¬(h0 = 5) := fun he5 => hstop (by rw [hall]; simp [he5])
            have hlim : ∀ a ∈ props, h0 + 1 ≤ (getCell t a).housesOf + 1 := by
              intro a ha
              rw [hprops a ha]
            have h05 : h0 ≤ 5 := by
              rw [← hfa0]
              exact h2 a0 ha0
            have hps := buildPass_even i (h0 + 1) props hnd t h1 h2 hlim (by omega)
            exact buildLoop_even i hp0 fuel props hnd (buildPass t i props (h0 + 1))
              hps.1 hps.2
          · have hlim : ∀ a ∈ props, restmap.foldl max h0 ≤ (getCell t a).housesOf + 1 := by
              intro a ha
              apply foldl_max_le
              · have hs := h1 a0 ha0 a ha
                rw [hfa0] at hs
                exact hs
              · intro x hx
                obtain ⟨ax, hax, hfax⟩ := hrestmem x hx
                have hs := h1 ax hax a ha
                rw [hfax] at hs
                exact hs
            have hlim5 : restmap.foldl max h0 ≤ 5 := by
              apply foldl_max_le
              · rw [← hfa0]
                exact h2 a0 ha0
              · intro x hx
                obtain ⟨ax, hax, hfax⟩ := hrestmem x hx
                rw [← hfax]
                exact h2 ax hax
            have hps := buildPass_even i (restmap.foldl max h0) props hnd t h1 h2 hlim hlim5
            exact buildLoop_even i hp0 fuel props hnd
              (buildPass t i props (restmap.foldl max h0)) hps.1 hps.2
    · exact ⟨h1, h2⟩

theorem getCell_unMortgageApply_facts (t : GameSt) (i j a : Nat) :
    cellTag (getCell (unMortgageApply t i j) a) = cellTag (getCell t a) ∧
    (getCell (unMortgageApply t i j) a).housesOf = (getCell t a).housesOf := by
  unfold unMortgageApply
  rw [getCell_modifyPlayer]
  by_cases he : j = a
  · subst he
    by_cases hlt : j < t.cells.length
    · rw [getCell_modifyCell_self _ _ _ hlt]
      exact ⟨cellTag_setMortgaged _ _, housesOf_setMortgaged _ _⟩
    · rw [modifyCell_ge _ _ _ (le_of_not_lt hlt)]
      exact ⟨rfl, rfl⟩
  · rw [getCell_modifyCell_ne _ _ _ _ he]
    exact ⟨rfl, rfl⟩

theorem length_cells_unMortgageApply (t : GameSt) (i j : Nat) :
    (unMortgageApply t i j).cells.length = t.cells.length := by
  simp [unMortgageApply]

theorem unmortgagePass_shape (s : GameSt) (i : Nat) :
    (∀ a, cellTag (getCell (unmortgagePass s i) a) = cellTag (getCell s a) ∧
          (getCell (unmortgagePass s i) a).housesOf = (getCell s a).housesOf) ∧
    (unmortgagePass s i).cells.length = s.cells.length := by
  unfold unmortgagePass
  refine foldl_preserves_prop _
    (fun t => (∀ a, cellTag (getCell t a) = cellTag (getCell s a) ∧
          (getCell t a).housesOf = (getCell s a).housesOf) ∧
       t.cells.length = s.cells.length) _ _ ?_ ⟨fun _ => ⟨rfl, rfl⟩, rfl⟩
  intro t j hj ht
  dsimp only
  split
  · refine ⟨fun a => ?_, by rw [length_cells_unMortgageApply]; exact ht.2⟩
    have hf := getCell_unMortgageApply_facts t i j a
    exact ⟨hf.1.trans (ht.1 a).1, hf.2.trans (ht.1 a).2⟩
  · exact ht

/-- C6: the end-of-turn asset management of take_turn (the un-mortgage pass
followed by the building loop over every monopoly color) preserves the
even-building property of a color group whose cells all belong to player i:
afterwards no two cells of the group differ in house count by more than one
and none exceeds five.  (The claim's original wording — that this holds after
ANY take_turn — fails: the cover_debt path of a turn sells houses one per
property per pass with an early return, and C6_counterexample below exhibits
a turn that leaves a fully owned group at house counts 1 and 3.) -/
theorem C6_even_building (s : GameSt) (i : Nat) (c : Color) (fuel : Nat)
    (hfull : ∀ j ∈ groupIdx s c, (getCell s j).owner? = some i)
    (heven : EvenColor s c) : EvenColor (endTurnAssets s i fuel) c := by
  obtain ⟨h1, h2⟩ := heven
  unfold endTurnAssets
  split
  · show EvenColor (List.foldl
      (fun t c2 => match propsOfColor t i c2 with
        | [] => t
        | j0 :: rest => buildLoop i (j0 :: rest) ((getCell t j0).housePriceOf : Int) fuel t)
      (unmortgagePass s i) (monopolies (unmortgagePass s i) i)) c
    have hums := unmortgagePass_shape s i
    have key := foldl_preserves_prop
      (fun t c2 => match propsOfColor t i c2 with
        | [] => t
        | j0 :: rest => buildLoop i (j0 :: rest) ((getCell t j0).housePriceOf : Int) fuel t)
      (fun t => (∀ a, cellTag (getCell t a) = cellTag (getCell s a)) ∧
        t.cells.length = s.cells.length ∧
        (∀ a ∈ groupIdx s c, ∀ b ∈ groupIdx s c,
          (getCell t a).housesOf ≤ (getCell t b).housesOf + 1) ∧
        (∀ a ∈ groupIdx s c, (getCell t a).housesOf ≤ 5))
      (monopolies (unmortgagePass s i) i) (unmortgagePass s i) ?_
      ⟨fun a => (hums.1 a).1, hums.2,
        fun a ha b hb => by rw [(hums.1 a).2, (hums.1 b).2]; exact h1 a ha b hb,
        fun a ha => by rw [(hums.1 a).2]; exact h2 a ha⟩
    · obtain ⟨ktag, klen, ksp, k5⟩ := key
      have hmem2 : ∀ a, (a ∈ groupIdx (List.foldl
          (fun t c2 => match propsOfColor t i c2 with
            | [] => t
            | j0 :: rest => buildLoop i (j0 :: rest) ((getCell t j0).housePriceOf : Int) fuel t)
          (unmortgagePass s i) (monopolies (unmortgagePass s i) i)) c)
          ↔ a ∈ groupIdx s c := by
        intro a
        rw [mem_groupIdx, mem_groupIdx]
        have htaga := (cellTag_iff _ _).mp (ktag a)
        rw [klen, htaga.1, htaga.2.1]
      exact ⟨fun a ha b hb => ksp a ((hmem2 a).mp ha) b ((hmem2 b).mp hb),
             fun a ha => k5 a ((hmem2 a).mp ha)⟩
    · intro t c2 _ ht
      dsimp only
      split
      · exact ht
      · rename_i j0 rest heqp
        obtain ⟨htag, hlen, hsp, h5⟩ := ht
        have hndp : (j0 :: rest).Nodup := by
          rw [← heqp]
          exact nodup_propsOfColor t i c2
        have hshape := buildLoop_shape i ((getCell t j0).housePriceOf : Int) fuel
          (j0 :: rest) hndp t
        refine ⟨fun a => (hshape.2.1 a).trans (htag a), hshape.2.2.trans hlen, ?_⟩
        by_cases hcc : c2 = c
        · subst hcc
          have hmemiff : ∀ a, a ∈ (j0 :: rest) ↔ a ∈ groupIdx s c2 := by
            intro a
            rw [← heqp, mem_propsOfColor, mem_groupIdx]
            have htaga := (cellTag_iff _ _).mp (htag a)
            constructor
            · rintro ⟨hlt2, _, hprop, hcol⟩
              exact ⟨hlen ▸ hlt2, by rw [← htaga.1]; exact hprop,
                     by rw [← htaga.2.1]; exact hcol⟩
            · rintro ⟨hlt2, hprop, hcol⟩
              have hown := hfull a ((mem_groupIdx s c2 a).mpr ⟨hlt2, hprop, hcol⟩)
              exact ⟨by rw [hlen]; exact hlt2, by rw [htaga.2.2]; exact hown,
                     by rw [htaga.1]; exact hprop, by rw [htaga.2.1]; exact hcol⟩
          have hloop := buildLoop_even i ((getCell t j0).housePriceOf : Int) fuel
            (j0 :: rest) hndp t
            (fun a ha b hb => hsp a ((hmemiff a).mp ha) b ((hmemiff b).mp hb))
            (fun a ha => h5 a ((hmemiff a).mp ha))
          exact ⟨fun a ha b hb => hloop.1 a ((hmemiff a).mpr ha) b ((hmemiff b).mpr hb),
                 fun a ha => hloop.2 a ((hmemiff a).mpr ha)⟩
        · have hdis : ∀ a ∈ groupIdx s c, ¬(a ∈ (j0 :: rest)) := by
            intro a ha hmem
            rw [← heqp] at hmem
            have hx := (mem_propsOfColor t i c2 a).mp hmem
            have hg := (mem_groupIdx s c a).mp ha
            have htaga := (cellTag_iff _ _).mp (htag a)
            apply hcc
            have hsome : some c2 = some c := by
              rw [← hx.2.2.2, htaga.2.1, hg.2.2]
            exact Option.some.inj hsome
          refine ⟨fun a ha b hb => ?_, fun a ha => ?_⟩
          · rw [hshape.1 a (hdis a ha), hshape.1 b (hdis b hb)]
            exact hsp a ha b hb
          · rw [hshape.1 a (hdis a ha)]
            exact h5 a ha
  · exact ⟨h1, h2⟩

/-- A game where the pink group (cells 0-2, all owned by player 0) is evenly
built at 2, 3, 3 houses, and player 0 (cash 30, at go) is about to roll 1+4
onto player 1's red property charging rent 80. -/
def demoC6 : GameSt :=
  { houses := 10,
    cells := [
      Cell.property Color.pink 140 [10] 2 100 false (some 0),
      Cell.property Color.pink 140 [10] 3 100 false (some 0),
      Cell.property Color.pink 140 [10] 3 100 false (some 0),
      Cell.space SpaceKind.chance,
      Cell.space SpaceKind.communityChest,
      Cell.property Color.red 220 [80] 0 150 false (some 1)],
    players := [
      { cash := 30, bankrupt := false, cashThreshold := 200, inJail := false,
        turnsInJail := 0, space := 0 },
      { cash := 100, bankrupt := false, cashThreshold := 200, inJail := false,
        turnsInJail := 0, space := 3 }] }

def demoRngC6 : Nat → Nat := fun n => if n = 0 then 0 else 3

/-- C6 counterexample: the claim's wording over a whole take_turn fails.
Player 0 fully owns the evenly built pink group (houses 2, 3, 3), rolls onto
a rent of 80 it cannot pay, and cover_debt sells one house from each of the
first two pinks before its early return.  After the turn the player still
holds the pink monopoly, but the group sits at houses 1, 2, 3: cells 0 and 2
differ by two, violating the even-building invariant. -/
theorem C6_counterexample :
    (∀ j ∈ groupIdx demoC6 Color.pink, (getCell demoC6 j).owner? = some 0) ∧
    EvenColor demoC6 Color.pink ∧
    hasMonopoly (takeTurn demoRngC6 demoC6 0 0 5).1 0 Color.pink = true ∧
    (getCell (takeTurn demoRngC6 demoC6 0 0 5).1 0).housesOf = 1 ∧
    (getCell (takeTurn demoRngC6 demoC6 0 0 5).1 2).housesOf = 3 ∧
    0 ∈ groupIdx (takeTurn demoRngC6 demoC6 0 0 5).1 Color.pink ∧
    2 ∈ groupIdx (takeTurn demoRngC6 demoC6 0 0 5).1 Color.pink ∧
    ¬ EvenColor (takeTurn demoRngC6 demoC6 0 0 5).1 Color.pink := by
  refine ⟨by decide, by decide, by decide, by decide, by decide, by decide, by decide, ?_⟩
  intro h
  exact absurd (h.1 2 (by decide) 0 (by decide)) (by decide)

/-- C6 witness: the amended preservation theorem applied to the demo game,
whose pink group is fully owned by player 0 and evenly built. -/
theorem C6_witness :
    (∀ j ∈ groupIdx demoC6 Color.pink, (getCell demoC6 j).owner? = some 0) ∧
    EvenColor (endTurnAssets demoC6 0 5) Color.pink :=
  ⟨by decide, C6_even_building demoC6 0 Color.pink 5 (by decide) (by decide)⟩

/-! Claim C9: termination of Game.play.  The while loop of play() is modelled
by iterating its body playStep; n iterations of the loop are playIter n. -/

/-- n iterations of the while-loop body of Game.play. -/
def playIter (rng : Nat → Nat) (fuel : Nat) : Nat → PlaySt → PlaySt
  | 0, st => st
  | n + 1, st => playIter rng fuel n (playStep rng fuel st)

/-- Cells on which resolve_space does nothing: plain spaces other than the
two taxes and Go To Jail. -/
def harmlessCell : Cell → Bool
  | .space SpaceKind.go => true
  | .space SpaceKind.chance => true
  | .space SpaceKind.communityChest => true
  | .space SpaceKind.jail => true
  | .space SpaceKind.freeParking => true
  | _ => false

/-- A board whose every cell (and the out-of-range default) is harmless. -/
def Harmless (s : GameSt) : Prop := ∀ j, harmlessCell (getCell s j) = true

/-- A game on a harmless board with two players, none bankrupt or jailed. -/
def calmState (g : GameSt) : Prop :=
  Harmless g ∧ g.players.length = 2 ∧
    (∀ p ∈ g.players, p.bankrupt = false ∧ p.inJail = false)

theorem getD_replicate {α : Type} (x d : α) :
    ∀ (n j : Nat), (List.replicate n x).getD j d = x ∨ (List.replicate n x).getD j d = d
  | 0, _ => Or.inr rfl
  | _ + 1, 0 => Or.inl rfl
  | n + 1, j + 1 => getD_replicate x d n j

theorem owner_harmless (c : Cell) (h : harmlessCell c = true) : c.owner? = none := by
  cases c
  case space => rfl
  all_goals simp [harmlessCell] at h

theorem ownedIdx_harmless {s : GameSt} (hs : Harmless s) (i : Nat) :
    ownedIdx s i = [] := by
  unfold ownedIdx ownedIdxL
  apply List.filter_eq_nil_iff.mpr
  intro j _
  rw [← getCell_eq_getCellL]
  simp [owner_harmless _ (hs j)]

theorem countColorL_harmless {s : GameSt} (hs : Harmless s) (i : Nat) (c : Color) :
    countColorL s.cells i c = 0 := by
  unfold countColorL
  rw [show ownedIdxL s.cells i = [] from ownedIdx_harmless hs i]
  rfl

theorem monopolies_harmless {s : GameSt} (hs : Harmless s) (i : Nat) :
    monopolies s i = [] := by
  unfold monopolies monopoliesL
  apply List.filter_eq_nil_iff.mpr
  intro c _
  unfold hasMonopolyL
  rw [countColorL_harmless hs i c]
  unfold colorNeed
  split <;> simp

theorem wants_harmless {s : GameSt} (hs : Harmless s) (i : Nat) : wants s i = [] := by
  unfold wants wantsL
  have ham : almostMonopoliesL s.cells i = [] := by
    apply List.filter_eq_nil_iff.mpr
    intro c _
    simp [countColorL_harmless hs i c]
  rw [ham]
  rfl

theorem findTradesGo_harmless {s : GameSt} (hs : Harmless s) (b : Nat) :
    ∀ l, findTradesGo s b l = s
  | [] => rfl
  | sel :: rest => by
    have hrec := findTradesGo_harmless hs b rest
    simp [findTradesGo, wants_harmless hs b, wants_harmless hs sel, hrec]

theorem findTrades_harmless {s : GameSt} (hs : Harmless s) (b : Nat) :
    findTrades s b = s :=
  findTradesGo_harmless hs b _

theorem resolveSpace_harmless (rng : Nat → Nat) {s : GameSt} (i k : Nat)
    (hs : Harmless s) : resolveSpace rng s i k = (s, k) := by
  have h := hs ((getPlayer s i).space)
  cases hcell : getCell s ((getPlayer s i).space) with
  | space kind =>
    rw [hcell] at h
    cases kind
    case luxuryTax => simp [harmlessCell] at h
    case incomeTax => simp [harmlessCell] at h
    case goToJail => simp [harmlessCell] at h
    all_goals simp [resolveSpace, hcell]
  | property color price rd hh hp m o =>
    rw [hcell] at h
    simp [harmlessCell] at h
  | railroad price m o =>
    rw [hcell] at h
    simp [harmlessCell] at h
  | utility price m o =>
    rw [hcell] at h
    simp [harmlessCell] at h

theorem harmless_of_cells_eq {s : GameSt} (t : GameSt) (h : t.cells = s.cells)
    (hs : Harmless s) : Harmless t := by
  intro j
  rw [show getCell t j = getCell s j from by unfold getCell; rw [h]]
  exact hs j

theorem getPlayer_flags {s : GameSt}
    (h : ∀ p ∈ s.players, p.bankrupt = false ∧ p.inJail = false) (j : Nat) :
    (getPlayer s j).bankrupt = false ∧ (getPlayer s j).inJail = false := by
  by_cases hlt : j < s.players.length
  · apply h
    unfold getPlayer
    rw [List.getD_eq_getElem s.players default hlt]
    exact List.getElem_mem hlt
  · unfold getPlayer
    rw [getD_ge _ _ _ (le_of_not_lt hlt)]
    exact ⟨rfl, rfl⟩

theorem flags_modifyPlayer (s : GameSt) (j : Nat) (f : PlayerSt → PlayerSt)
    (hf : ∀ p, (f p).bankrupt = p.bankrupt ∧ (f p).inJail = p.inJail)
    (h : ∀ p ∈ s.players, p.bankrupt = false ∧ p.inJail = false) :
    ∀ p ∈ (modifyPlayer s j f).players, p.bankrupt = false ∧ p.inJail = false := by
  intro p hp
  rcases List.mem_or_eq_of_mem_set hp with hmem | heq
  · exact h p hmem
  · subst heq
    have hj := getPlayer_flags h j
    exact ⟨(hf _).1.trans hj.1, (hf _).2.trans hj.2⟩

theorem cells_move (s : GameSt) (i sp : Nat) : (move s i sp).cells = s.cells := by
  simp only [move]
  split <;> rfl

theorem length_players_move (s : GameSt) (i sp : Nat) :
    (move s i sp).players.length = s.players.length := by
  simp only [move]
  split <;> simp

theorem move_calm {s : GameSt} (i sp : Nat) (h : calmState s) :
    calmState (move s i sp) := by
  refine ⟨harmless_of_cells_eq _ (cells_move s i sp) h.1,
    (length_players_move s i sp).trans h.2.1, ?_⟩
  simp only [move]
  split
  · exact flags_modifyPlayer _ _ _ (fun _ => ⟨rfl, rfl⟩)
      (flags_modifyPlayer _ _ _ (fun _ => ⟨rfl, rfl⟩) h.2.2)
  · exact flags_modifyPlayer _ _ _ (fun _ => ⟨rfl, rfl⟩) h.2.2

theorem playerCount_calm {g : GameSt} (h : calmState g) : playerCount g = 2 := by
  unfold playerCount
  have hfil : g.players.filter (fun p => !p.bankrupt) = g.players :=
    List.filter_eq_self.mpr (fun p hp => by rw [(h.2.2 p hp).1]; rfl)
  rw [hfil, h.2.1]

theorem gameOver_calm {g : GameSt} (h : calmState g) : gameOver g = false := by
  unfold gameOver
  rw [playerCount_calm h]
  rfl

theorem endTurnAssets_harmless {s : GameSt} (i fuel : Nat) (hs : Harmless s) :
    endTurnAssets s i fuel = s := by
  unfold endTurnAssets
  split
  · show List.foldl
      (fun t c2 => match propsOfColor t i c2 with
        | [] => t
        | j0 :: rest => buildLoop i (j0 :: rest) ((getCell t j0).housePriceOf : Int) fuel t)
      (unmortgagePass s i) (monopolies (unmortgagePass s i) i) = s
    have hum : unmortgagePass s i = s := by
      unfold unmortgagePass
      rw [ownedIdx_harmless hs i]
      rfl
    rw [hum, monopolies_harmless hs i]
    rfl
  · rfl

theorem rollLoop_calm (rng : Nat → Nat) (i : Nat) {s : GameSt} (k : Nat)
    (hrng : ∀ k2, ¬ die rng k2 = die rng (k2 + 1)) (hs : Harmless s) :
    rollLoop rng i 3 0 s k = (move s i (die rng k + die rng (k + 1)), k + 2) := by
  have hd : decide (die rng k = die rng (k + 1)) = false := decide_eq_false (hrng k)
  have hmv : Harmless (move s i (die rng k + die rng (k + 1))) :=
    harmless_of_cells_eq _ (cells_move s i _) hs
  simp [rollLoop, hd, resolveSpace_harmless rng i (k + 2) hmv]

theorem takeTurn_calm (rng : Nat → Nat) {s : GameSt} (i k fuel : Nat)
    (hrng : ∀ k2, ¬ die rng k2 = die rng (k2 + 1)) (h : calmState s) :
    takeTurn rng s i k fuel = (move s i (die rng k + die rng (k + 1)), k + 2) := by
  have hfl := getPlayer_flags h.2.2 i
  have hmv : Harmless (move s i (die rng k + die rng (k + 1))) :=
    harmless_of_cells_eq _ (cells_move s i _) h.1
  simp only [takeTurn, hfl.1, hfl.2, Bool.false_eq_true, if_false,
    rollLoop_calm rng i k hrng h.1]
  rw [endTurnAssets_harmless i fuel hmv]

theorem playRoundGo_calm (rng : Nat → Nat) (fuel : Nat)
    (hrng : ∀ k2, ¬ die rng k2 = die rng (k2 + 1)) :
    ∀ (l : List Nat) (st : PlaySt), calmState st.g →
      calmState (playRoundGo rng fuel l st).g
  | [], _, h => h
  | i :: rest, st, h => by
    have hfl := getPlayer_flags h.2.2 i
    have ht := takeTurn_calm rng i st.k fuel hrng h
    have hmcalm : calmState (move st.g i (die rng st.k + die rng (st.k + 1))) :=
      move_calm i _ h
    simp only [playRoundGo, hfl.1, Bool.false_eq_true, if_false, ht]
    rw [findTrades_harmless hmcalm.1 i, gameOver_calm hmcalm]
    simp only [Bool.false_eq_true, if_false]
    exact playRoundGo_calm rng fuel hrng rest _ hmcalm

theorem playRound_calm (rng : Nat → Nat) (fuel : Nat)
    (hrng : ∀ k2, ¬ die rng k2 = die rng (k2 + 1)) (st : PlaySt)
    (h : calmState st.g) : calmState (playRound rng fuel st).g :=
  playRoundGo_calm rng fuel hrng _ _ h

theorem randomTrade_g (rng : Nat → Nat) (st : PlaySt) (hs : Harmless st.g) :
    (randomTrade rng st).g = st.g := by
  simp [randomTrade, ownedIdx_harmless hs]

theorem calm_randomTrade_ite (rng : Nat → Nat) (st : PlaySt) (c : Prop) [Decidable c]
    (h : calmState st.g) :
    calmState (if c then randomTrade rng st else st).g := by
  split
  · rw [randomTrade_g rng st h.1]
    exact h
  · exact h

theorem calm_rnm_ite (c : Prop) [Decidable c] (a : PlaySt) (x y : Nat)
    (h : calmState a.g) :
    calmState (if c then { a with roundsNoMonopolies := x }
               else { a with roundsNoMonopolies := y }).g := by
  split
  · exact h
  · exact h

theorem playStep_calm (rng : Nat → Nat) (fuel : Nat) (st : PlaySt)
    (hrng : ∀ k2, ¬ die rng k2 = die rng (k2 + 1)) (h : calmState st.g) :
    calmState (playStep rng fuel st).g := by
  unfold playStep
  split
  · exact h
  · exact calm_rnm_ite _ _ _ _
      (playRound_calm rng fuel hrng _
        (calm_randomTrade_ite rng _ _ (calm_randomTrade_ite rng _ _ h)))

theorem calm_playIter (rng : Nat → Nat) (fuel : Nat)
    (hrng : ∀ k2, ¬ die rng k2 = die rng (k2 + 1)) :
    ∀ (n : Nat) (st : PlaySt), calmState st.g → calmState (playIter rng fuel n st).g
  | 0, _, h => h
  | n + 1, st, h =>
    calm_playIter rng fuel hrng n _ (playStep_calm rng fuel st hrng h)

/-- C9: the while loop of Game.play need NOT terminate.  Whenever the game is
in a calm state (a harmless board — no ownable cells, no taxes, no Go To
Jail — with two players, none bankrupt or jailed) and the dice stream never
rolls a double, every number of iterations of the loop body leaves the game
calm and game_over false, so the loop never exits: the random_trade
safeguards fire as described but are no-ops for players who own nothing, and
no bounded number of rounds reaches a single-survivor state. -/
theorem C9_play_nontermination (rng : Nat → Nat) (fuel : Nat) (st : PlaySt)
    (hrng : ∀ k2, ¬ die rng k2 = die rng (k2 + 1))
    (h : calmState st.g) (n : Nat) :
    calmState (playIter rng fuel n st).g ∧
    gameOver (playIter rng fuel n st).g = false :=
  ⟨calm_playIter rng fuel hrng n st h,
   gameOver_calm (calm_playIter rng fuel hrng n st h)⟩

/-- A two-player game on a board of forty Free Parking spaces.  The source
Game constructor accepts any board dict, so this is a legal input to play. -/
def demoC9 : PlaySt :=
  { g := { houses := 44,
           cells := List.replicate 40 (Cell.space SpaceKind.freeParking),
           players := [
             { cash := 1500, bankrupt := false, cashThreshold := 200, inJail := false,
               turnsInJail := 0, space := 0 },
             { cash := 1500, bankrupt := false, cashThreshold := 200, inJail := false,
               turnsInJail := 0, space := 0 }] },
    rounds := 0, roundsNoMonopolies := 0, k := 0 }

/-- A random stream that never rolls a double: consecutive draws k, k+1 give
distinct die values. -/
def demoRngC9 : Nat → Nat := fun n => n

theorem die_demoRngC9_ne (k : Nat) :
    ¬ die demoRngC9 k = die demoRngC9 (k + 1) := by
  unfold die demoRngC9
  omega

theorem calm_demoC9 : calmState (gameReset demoC9).g := by
  refine ⟨?_, by decide, by decide⟩
  intro j
  have hc : (gameReset demoC9).g.cells
      = List.replicate 40 (Cell.space SpaceKind.freeParking) := by decide
  show harmlessCell (getCell (gameReset demoC9).g j) = true
  unfold getCell
  rw [hc]
  rcases getD_replicate (Cell.space SpaceKind.freeParking) defaultCell 40 j
    with h | h <;> rw [h] <;> rfl

/-- The statement that the play loop of the demoC9 game never exits: after
every number of iterations of the loop body (entered, as play() does, through
Game.reset) the game is still not over. -/
def playNeverOverDemoC9 : Prop :=
  ∀ n : Nat, gameOver (playIter demoRngC9 5 n (gameReset demoC9)).g = false

/-- C9 counterexample: the game of demoC9 — two players on an all-Free-Parking
board, dice that never double — runs play() forever: the game is never over,
so no bounded number of rounds reaches a state with exactly one non-bankrupt
player. -/
theorem C9_counterexample : playNeverOverDemoC9 :=
  fun n => gameOver_calm (calm_playIter demoRngC9 5 die_demoRngC9_ne n _ calm_demoC9)

/-- C9 witness: the non-termination theorem applied to the demo game at 100
loop iterations. -/
theorem C9_witness :
    calmState (playIter demoRngC9 5 100 (gameReset demoC9)).g ∧
    gameOver (playIter demoRngC9 5 100 (gameReset demoC9)).g = false :=
  C9_play_nontermination demoRngC9 5 (gameReset demoC9) die_demoRngC9_ne calm_demoC9 100

end Monopoly
